import Mathlib

/-!
Verification of the AiPerfAnalizer processing pipeline.

This file gives a shallow embedding of the repository's core code
(`project_processor.py`, `utils.py`, `api_routes.py`, `models.py`) and proves
properties of it.  The persistent store is modelled as an explicit `DB` value;
the reasoning-service collaborator (`ai_analyzer.py`) is modelled as an
oracle record `Env` whose calls may fail (`Except`/`Option`), matching the
failure modes the Python code handles.  The JSON text stored in the
`related_files` column is modelled by the structured type `RelatedFiles`,
with accessors mirroring the `json.loads(...).get(...)` reads of the source.
-/

set_option maxHeartbeats 1000000

namespace AiPerf

/-- Lifecycle status of a project (`models.py`, `ProjectStatus`). -/
inductive ProjectStatus where
  | INITIALIZING
  | PROCESSING
  | COMPLETED
  | FAILED
deriving DecidableEq, Repr

/-- Kind of an issue (`models.py`, `IssueType`). -/
inductive IssueType where
  | CONFIRMED
  | POTENTIAL
deriving DecidableEq, Repr

/-- Structured rendering of the JSON text the source stores in
`Issue.related_files`: the extractor stores keywords plus confidence, a
confirmed issue stores its two source issue ids, confidence and file names,
and the back-reference annotation stores a confirmed issue id together with
the literal tag `"source"`. -/
inductive RelatedFiles where
  | potentialMeta (potential_correlation : List String) (confidence : Rat)
  | confirmedMeta (correlated_issues : List Nat) (confidence : Rat) (files : List (Option String))
  | backRef (confirmed_issue_id : Nat) (correlation_type : String)
deriving DecidableEq, Repr

/-- `models.py`, `Project`. -/
structure Project where
  id : Nat
  total_files : Nat
  files_processed : Nat
  status : ProjectStatus
  error_message : Option String
deriving DecidableEq, Repr

/-- `models.py`, `ProjectFile`. -/
structure ProjectFile where
  id : Nat
  project_id : Nat
  filename : String
  content : String
  file_type : String
  processed : Bool
deriving DecidableEq, Repr

/-- `models.py`, `Issue`.  `related_files` is `none` for a NULL column. -/
structure IssueRec where
  id : Nat
  project_id : Nat
  file_id : Option Nat
  issue_type : IssueType
  title : String
  description : String
  line_number : Option Nat
  code_snippet : Option String
  severity : String
  category : String
  fix_suggestion : Option String
  related_files : Option RelatedFiles
deriving DecidableEq, Repr

/-- One raw issue record inside the reasoning service's JSON answer; every
field may be missing (`issue_data.get(...)` in `_analyze_file`). -/
structure RawIssue where
  title : Option String
  description : Option String
  line_number : Option Nat
  code_snippet : Option String
  severity : Option String
  category : Option String
  potential_correlation : Option (List String)
  confidence : Option Rat
deriving DecidableEq, Repr

/-- Result payload of `analyze_file_for_issues`: an optional `error` entry and
a list of raw issue records (`analysis_result.get('issues', [])`). -/
structure AnalysisResult where
  error : Option String
  issues : List RawIssue
deriving DecidableEq, Repr

/-- Result payload of the correlation check (`correlate_issues` in
`ai_analyzer.py`), fields read with `.get` defaults in
`_create_confirmed_issue`. -/
structure CorrelationResult where
  is_correlated : Bool
  combined_description : Option String
  combined_severity : Option String
  correlation_explanation : Option String
  correlation_confidence : Option Rat
deriving DecidableEq, Repr

/-- Result payload of `generate_fix_suggestion`; Python truthiness of the
`.get` reads is modelled by emptiness of the field. -/
structure Suggestion where
  fix_steps : List String
  fixed_code : String
  explanation : String
  estimated_improvement : String
  alternatives : List String
deriving DecidableEq, Repr

/-- The regular-expression content sniffers of `determine_file_type`
(`utils.py` lines 56-88), kept as opaque boolean tests on the lowered
1000-character sample; the substring and prefix based sniffers are embedded
concretely below. -/
structure ContentMatchers where
  pythonPat : String → Bool
  javaPat : String → Bool
  jsPat : String → Bool
  yamlPat : String → Bool
  xmlTagPat : String → Bool
  sqlPat : String → Bool

/-- The reasoning-service collaborator plus the persistent-store failure the
top-level `try` of `process_project` can observe.  `analyze` receives
(filename, content, file type) and may raise (`Except.error`) or answer;
`correlate` returns `none` both when the call fails and when
`_check_issue_correlation` swallows an exception; `suggest` may raise, which
`_generate_fix_suggestions` converts to a placeholder text.  `storeFail`
injects a store exception at the files query of `process_project` (the first
store access not protected by an inner handler). -/
structure Env where
  matchers : ContentMatchers
  analyze : String → String → String → Except String AnalysisResult
  correlate : IssueRec → IssueRec → String → String → Option CorrelationResult
  suggest : IssueRec → Except String Suggestion
  storeFail : Option String

/-- The persistent store. -/
structure DB where
  projects : List Project
  files : List ProjectFile
  issues : List IssueRec
  nextIssueId : Nat
deriving Repr

/-! ## String helpers (character-list based, mirroring the Python built-ins) -/

/-- Whether the first list is an initial segment of the second. -/
def listPre : List Char → List Char → Bool
  | [], _ => true
  | _ :: _, [] => false
  | a :: as, b :: bs => a = b && listPre as bs

/-- Python `needle in hay` on strings. -/
def containsSub (hay needle : String) : Bool :=
  (List.range (hay.data.length + 1)).any fun k => listPre needle.data (hay.data.drop k)

/-- Python `s[:n]`. -/
def strTake (s : String) (n : Nat) : String := ⟨s.data.take n⟩

/-- Python `s.lower()`. -/
def lowerStr (s : String) : String := ⟨s.data.map Char.toLower⟩

/-- Python `s.endswith(t)`. -/
def strEndsWith (s t : String) : Bool := listPre t.data.reverse s.data.reverse

/-- Python `s.startswith(t)`. -/
def strStartsWith (s t : String) : Bool := listPre t.data s.data

/-- Python whitespace for `str.strip()`. -/
def isPySpace (c : Char) : Bool :=
  c = ' ' || c = '\t' || c = '\n' || c = '\r' || c = '\x0b' || c = '\x0c'

/-- Python `s.strip()`. -/
def strStrip (s : String) : String :=
  ⟨((s.data.dropWhile isPySpace).reverse.dropWhile isPySpace).reverse⟩

/-! ## Classifier (`utils.py`, `determine_file_type`) -/

/-- The extension branch of `determine_file_type` (`utils.py` lines 14-49),
applied to the lowered filename; `none` when no extension matches. -/
def extensionTag (fl : String) : Option String :=
  if strEndsWith fl ".py" then some "python"
  else if strEndsWith fl ".java" then some "java"
  else if strEndsWith fl ".js" || strEndsWith fl ".ts" then some "javascript"
  else if strEndsWith fl ".jmx" then some "jmeter"
  else if strEndsWith fl ".yaml" || strEndsWith fl ".yml" then some "yaml"
  else if strEndsWith fl ".json" then some "json"
  else if strEndsWith fl ".xml" then some "xml"
  else if strEndsWith fl ".sh" || strEndsWith fl ".bash" then some "shell"
  else if strEndsWith fl ".sql" then some "sql"
  else if strEndsWith fl ".properties" then some "properties"
  else if strEndsWith fl ".conf" || strEndsWith fl ".config" then some "config"
  else if strEndsWith fl ".dockerfile" || fl = "dockerfile" then some "dockerfile"
  else if strEndsWith fl ".go" then some "go"
  else if strEndsWith fl ".rb" then some "ruby"
  else if strEndsWith fl ".php" then some "php"
  else if strEndsWith fl ".cs" then some "csharp"
  else if strEndsWith fl ".scala" then some "scala"
  else if strEndsWith fl ".kt" then some "kotlin"
  else none

/-- The ordered content sniffing of `determine_file_type` (`utils.py`
lines 52-89) on the lowered 1000-character sample; the JMeter needles keep
their original upper-case letters exactly as in the source (they are searched
inside the lowered sample there as well). -/
def contentSniff (m : ContentMatchers) (sample : String) : String :=
  if m.pythonPat sample then "python"
  else if m.javaPat sample then "java"
  else if m.jsPat sample then "javascript"
  else if containsSub sample "<jmeterTestPlan" || containsSub sample "<TestPlan" then "jmeter"
  else if m.yamlPat sample then "yaml"
  else if strStartsWith (strStrip sample) "\x7b" && containsSub sample "\"" then "json"
  else if strStartsWith (strStrip sample) "<?xml" || m.xmlTagPat sample then "xml"
  else if strStartsWith sample "#!" && (containsSub sample "bash" || containsSub sample "sh") then "shell"
  else if m.sqlPat sample then "sql"
  else "unknown"

/-- `utils.py`, `determine_file_type`: extension table first, then (for
non-empty content) ordered content sniffing on the lowered first 1000
characters, `"unknown"` otherwise. -/
def determine_file_type (m : ContentMatchers) (filename content : String) : String :=
  let fl := lowerStr filename
  match extensionTag fl with
  | some t => t
  | none =>
    if content ≠ "" then contentSniff m (lowerStr (strTake content 1000))
    else "unknown"

/-! ## Store access helpers -/

/-- `Project.query.get(project_id)`. -/
def getProject (db : DB) (pid : Nat) : Option Project :=
  db.projects.find? fun p => decide (p.id = pid)

/-- In-place update of the project row with the given id. -/
def updateProject (db : DB) (pid : Nat) (f : Project → Project) : DB :=
  { db with projects := db.projects.map fun p => if p.id = pid then f p else p }

/-- `ProjectFile.query.filter_by(project_id=...)`. -/
def projectFiles (db : DB) (pid : Nat) : List ProjectFile :=
  db.files.filter fun f => decide (f.project_id = pid)

/-- `Issue.query.filter_by(project_id=...)`. -/
def projectIssues (db : DB) (pid : Nat) : List IssueRec :=
  db.issues.filter fun i => decide (i.project_id = pid)

/-- `Issue.query.filter_by(project_id=..., issue_type=IssueType.POTENTIAL)`. -/
def projectPotentialIssues (db : DB) (pid : Nat) : List IssueRec :=
  db.issues.filter fun i => decide (i.project_id = pid) && decide (i.issue_type = IssueType.POTENTIAL)

/-- Set `processed = True` on the file row with the given id
(`_analyze_file` line 124). -/
def markFileProcessed (db : DB) (fid : Nat) : DB :=
  { db with files := db.files.map fun f => if f.id = fid then { f with processed := true } else f }

/-- Lookup of the issue row with the given id (the live ORM object the
correlation loop reads and mutates). -/
def findIssue (db : DB) (iid : Nat) : Option IssueRec :=
  db.issues.find? fun i => decide (i.id = iid)

/-- `issue.file` relationship lookup. -/
def getFileRec (db : DB) (fid : Option Nat) : Option ProjectFile :=
  match fid with
  | none => none
  | some n => db.files.find? fun f => decide (f.id = n)

/-- `issue.file.content if issue.file else ""`. -/
def fileContentOf (db : DB) (fid : Option Nat) : String :=
  match getFileRec db fid with
  | some f => f.content
  | none => ""

/-- `issue.file.filename if issue.file else None`. -/
def fileNameOf (db : DB) (fid : Option Nat) : Option String :=
  (getFileRec db fid).map fun f => f.filename

/-- `issue.file.filename if issue.file else 'Неизвестно'`. -/
def fileNameOrUnknown (db : DB) (fid : Option Nat) : String :=
  match getFileRec db fid with
  | some f => f.filename
  | none => "Неизвестно"

/-! ## Issue extractor (`project_processor.py`, `_analyze_file`) -/

/-- The `Issue(...)` construction of `_analyze_file` (lines 98-112), with the
source's `.get` defaults for missing raw fields. -/
def mkPotentialIssue (nid : Nat) (f : ProjectFile) (r : RawIssue) : IssueRec :=
  { id := nid
    project_id := f.project_id
    file_id := some f.id
    issue_type := IssueType.POTENTIAL
    title := r.title.getD "Неизвестная проблема"
    description := r.description.getD "Описание отсутствует"
    line_number := r.line_number
    code_snippet := some (r.code_snippet.getD "")
    severity := r.severity.getD "medium"
    category := r.category.getD "other"
    fix_suggestion := none
    related_files := some (RelatedFiles.potentialMeta (r.potential_correlation.getD [])
      (r.confidence.getD (1/2))) }

/-- The per-record creation loop of `_analyze_file` (lines 95-119), threading
the store's id counter and collecting the created rows. -/
def addRawIssues (db : DB) (f : ProjectFile) : List RawIssue → DB × List IssueRec
  | [] => (db, [])
  | r :: rs =>
    let i := mkPotentialIssue db.nextIssueId f r
    let db' : DB := { db with issues := db.issues ++ [i], nextIssueId := db.nextIssueId + 1 }
    let rest := addRawIssues db' f rs
    (rest.1, i :: rest.2)

/-- Whether the reasoning-service analysis of this file fails: the call
raises, or the payload carries an `'error'` entry (`_analyze_file`
lines 82-90 and 129-132). -/
def analysisFails (env : Env) (f : ProjectFile) : Bool :=
  match env.analyze f.filename f.content (determine_file_type env.matchers f.filename f.content) with
  | Except.error _ => true
  | Except.ok res => res.error.isSome

/-- `_analyze_file`: classify, call the analyzer; on a raised exception or an
error payload return `[]` leaving the store untouched (the rollback; the
file's `processed` flag is not set on either failure path); otherwise create
one potential issue per raw record and mark the file processed. -/
def analyze_file (env : Env) (db : DB) (f : ProjectFile) : DB × List IssueRec :=
  let ftype := determine_file_type env.matchers f.filename f.content
  match env.analyze f.filename f.content ftype with
  | Except.error _ => (db, [])
  | Except.ok res =>
    if res.error.isSome then (db, [])
    else
      let r := addRawIssues db f res.issues
      (markFileProcessed r.1 f.id, r.2)

/-! ## Correlator (`project_processor.py`, `_correlate_issues` and helpers) -/

/-- The built-in category adjacency table of `_should_check_correlation`
(lines 189-196), read with `related_categories.get(issue1.category, [])`. -/
def relatedCategories (c : String) : List String :=
  if c = "authentication" then ["database", "api", "network"]
  else if c = "database" then ["authentication", "memory", "io"]
  else if c = "api" then ["authentication", "network", "timeout"]
  else if c = "memory" then ["database", "io", "algorithm"]
  else if c = "io" then ["database", "memory", "network"]
  else if c = "network" then ["api", "io", "timeout"]
  else []

/-- `json.loads(issue.related_files or '{}').get('potential_correlation', [])`:
only the extractor's dictionary carries the key; the back-reference and
confirmed dictionaries (and a NULL column) yield `[]`. -/
def getKeywords : Option RelatedFiles → List String
  | some (RelatedFiles.potentialMeta ks _) => ks
  | _ => []

/-- `keywords1 & keywords2` non-empty (lines 207-212). -/
def keywordsIntersect (i1 i2 : IssueRec) : Bool :=
  (getKeywords i1.related_files).any fun k => (getKeywords i2.related_files).contains k

/-- `_should_check_correlation`: same category, else directed adjacency-table
lookup from `issue1.category`, else shared correlation keywords. -/
def should_check_correlation (i1 i2 : IssueRec) : Bool :=
  if i1.category = i2.category then true
  else if (relatedCategories i1.category).contains i2.category then true
  else keywordsIntersect i1 i2

/-- `_check_issue_correlation`: build both issues' payloads and both files'
contents and ask the service; `none` covers the failure/`null` cases. -/
def check_issue_correlation (env : Env) (db : DB) (i1 i2 : IssueRec) : Option CorrelationResult :=
  env.correlate i1 i2 (fileContentOf db i1.file_id) (fileContentOf db i2.file_id)

/-- The stripped description f-string of `_create_confirmed_issue`
(lines 255-267). -/
def confirmedDescription (db : DB) (i1 i2 : IssueRec) (corr : CorrelationResult) : String :=
  "Подтвержденная проблема, найденная в нескольких файлах:\n\n" ++
  "Файл 1: " ++ fileNameOrUnknown db i1.file_id ++ "\n" ++
  "Проблема: " ++ i1.title ++ "\n" ++ i1.description ++ "\n\n" ++
  "Файл 2: " ++ fileNameOrUnknown db i2.file_id ++ "\n" ++
  "Проблема: " ++ i2.title ++ "\n" ++ i2.description ++ "\n\n" ++
  "Объяснение корреляции: " ++ corr.correlation_explanation.getD "Автоматически обнаружена связь"

/-- `_create_confirmed_issue`: the new cross-file row (`file_id = None`),
flushed to obtain its id. -/
def create_confirmed_issue (db : DB) (i1 i2 : IssueRec) (corr : CorrelationResult)
    (pid : Nat) : DB × IssueRec :=
  let ci : IssueRec :=
    { id := db.nextIssueId
      project_id := pid
      file_id := none
      issue_type := IssueType.CONFIRMED
      title := corr.combined_description.getD ("Корреляция: " ++ i1.title ++ " + " ++ i2.title)
      description := confirmedDescription db i1 i2 corr
      line_number := none
      code_snippet := none
      severity := corr.combined_severity.getD "medium"
      category := i1.category
      fix_suggestion := none
      related_files := some (RelatedFiles.confirmedMeta [i1.id, i2.id]
        (corr.correlation_confidence.getD (4/5))
        [fileNameOf db i1.file_id, fileNameOf db i2.file_id]) }
  ({ db with issues := db.issues ++ [ci], nextIssueId := db.nextIssueId + 1 }, ci)

/-- The back-reference write of `_correlate_issues` (lines 164-171): the
whole `related_files` column of the row with id `iid` is replaced by the
back-reference dictionary. -/
def setBackRef (db : DB) (iid ciId : Nat) : DB :=
  { db with issues := db.issues.map fun i =>
      if i.id = iid then { i with related_files := some (RelatedFiles.backRef ciId "source") }
      else i }

/-- State of the correlation pass: the store plus the `confirmed_issues`
accumulator. -/
abbrev CorrSt := DB × List IssueRec

/-- One iteration of the inner comparison loop of `_correlate_issues`
(lines 147-171), acting on the live rows named by the snapshot ids. -/
def correlate_step (env : Env) (pid id1 id2 : Nat) (st : CorrSt) : CorrSt :=
  match findIssue st.1 id1, findIssue st.1 id2 with
  | some i1, some i2 =>
    if i1.file_id = i2.file_id then st
    else if should_check_correlation i1 i2 then
      match check_issue_correlation env st.1 i1 i2 with
      | some corr =>
        if corr.is_correlated then
          (setBackRef
            (setBackRef (create_confirmed_issue st.1 i1 i2 corr pid).1 i1.id
              (create_confirmed_issue st.1 i1 i2 corr pid).2.id)
            i2.id (create_confirmed_issue st.1 i1 i2 corr pid).2.id,
           st.2 ++ [(create_confirmed_issue st.1 i1 i2 corr pid).2])
        else st
      | none => st
    else st
  | _, _ => st

/-- `for issue2 in issues[i+1:]`. -/
def correlate_inner (env : Env) (pid id1 : Nat) (ids : List Nat) (st : CorrSt) : CorrSt :=
  ids.foldl (fun s id2 => correlate_step env pid id1 id2 s) st

/-- `for i, issue1 in enumerate(issues)` over the snapshot of potential-issue
ids fetched at the start of the pass. -/
def correlate_pass (env : Env) (pid : Nat) : List Nat → CorrSt → CorrSt
  | [], st => st
  | id1 :: rest, st => correlate_pass env pid rest (correlate_inner env pid id1 rest st)

/-- `_correlate_issues`: fetch the project's potential issues once, then run
the pairwise loop; returns the store and the `confirmed_issues` list. -/
def correlate_issues (env : Env) (db : DB) (pid : Nat) : DB × List IssueRec :=
  correlate_pass env pid ((projectPotentialIssues db pid).map fun i => i.id) (db, [])

/-! ## Fix-suggestion generator (`_generate_fix_suggestions`,
`_format_fix_suggestion`) -/

/-- Python truthiness of `issue.fix_suggestion` (NULL and the empty string
are falsy). -/
def fsTruthy : Option String → Bool
  | none => false
  | some s => s.length != 0

/-- `enumerate(suggestion['fix_steps'], 1)` rendering. -/
def numberSteps (start : Nat) : List String → String
  | [] => ""
  | s :: rest => toString start ++ ". " ++ s ++ "\n" ++ numberSteps (start + 1) rest

/-- The bulleted alternatives rendering. -/
def bulletList : List String → String
  | [] => ""
  | s :: rest => "• " ++ s ++ "\n" ++ bulletList rest

/-- `_format_fix_suggestion`: the fixed-order multi-section text, omitting
sections whose source field is falsy. -/
def format_fix_suggestion (s : Suggestion) : String :=
  "ПРЕДЛОЖЕНИЕ ПО ИСПРАВЛЕНИЮ:\n\n" ++
  (if s.fix_steps ≠ [] then "Шаги для исправления:\n" ++ numberSteps 1 s.fix_steps ++ "\n" else "") ++
  (if s.fixed_code ≠ "" then
    "Пример исправленного кода:\n\x60\x60\x60\n" ++ s.fixed_code ++ "\n\x60\x60\x60\n\n" else "") ++
  (if s.explanation ≠ "" then "Объяснение улучшений:\n" ++ s.explanation ++ "\n\n" else "") ++
  (if s.estimated_improvement ≠ "" then
    "Ожидаемое улучшение:\n" ++ s.estimated_improvement ++ "\n\n" else "") ++
  (if s.alternatives ≠ [] then "Альтернативные решения:\n" ++ bulletList s.alternatives else "")

/-- The error placeholder stored on a per-issue suggestion failure
(line 312). -/
def suggestionFailureText (e : String) : String :=
  "Не удалось создать автоматическое предложение по исправлению: " ++ e

/-- The per-issue body of the `_generate_fix_suggestions` loop: an issue of
the project without a truthy suggestion receives either the formatted
suggestion or the error placeholder; every other issue is left alone. -/
def applySuggestion (env : Env) (pid : Nat) (i : IssueRec) : IssueRec :=
  if i.project_id = pid ∧ fsTruthy i.fix_suggestion = false then
    match env.suggest i with
    | Except.ok s => { i with fix_suggestion := some (format_fix_suggestion s) }
    | Except.error e => { i with fix_suggestion := some (suggestionFailureText e) }
  else i

/-- `_generate_fix_suggestions`: every issue of the project already holding a
truthy suggestion is skipped; the others receive either the formatted
suggestion or the error placeholder.  The second component lists the ids of
the issues for which a suggestion request was issued. -/
def generate_fix_suggestions (env : Env) (db : DB) (pid : Nat) : DB × List Nat :=
  let requested := (db.issues.filter fun i =>
    decide (i.project_id = pid) && !fsTruthy i.fix_suggestion).map fun i => i.id
  ({ db with issues := db.issues.map (applySuggestion env pid) }, requested)

/-! ## Project lifecycle controller (`process_project` and the status
helpers) -/

/-- `_mark_project_completed`. -/
def mark_project_completed (db : DB) (pid : Nat) : DB :=
  updateProject db pid fun p => { p with status := ProjectStatus.COMPLETED }

/-- `_mark_project_failed`. -/
def mark_project_failed (db : DB) (pid : Nat) (msg : String) : DB :=
  updateProject db pid fun p =>
    { p with status := ProjectStatus.FAILED, error_message := some msg }

/-- The initial transaction of `process_project` (lines 29-31). -/
def setProcessing (db : DB) (pid : Nat) : DB :=
  updateProject db pid fun p =>
    { p with status := ProjectStatus.PROCESSING, files_processed := 0 }

/-- The progress transaction of `process_project` (lines 49-52). -/
def incrementProcessed (db : DB) (pid : Nat) : DB :=
  updateProject db pid fun p => { p with files_processed := p.files_processed + 1 }

/-- The per-file loop of `process_project` (lines 43-58): analyze each file
(its own failures already swallowed inside `_analyze_file`) and increment the
progress counter regardless. -/
def fileLoop (env : Env) (pid : Nat) : List ProjectFile → DB → DB
  | [], db => db
  | f :: fs, db => fileLoop env pid fs (incrementProcessed (analyze_file env db f).1 pid)

/-- `process_project`: missing project returns silently; otherwise set
`PROCESSING` and reset the counter, fetch the files (where a raised store
exception, `env.storeFail`, escapes to the single top-level handler and marks
the project `FAILED` with the captured message); an empty file list completes
directly; otherwise run the file loop, the correlation pass and the
suggestion pass, then mark `COMPLETED`. -/
def process_project (env : Env) (db : DB) (pid : Nat) : DB :=
  match getProject db pid with
  | none => db
  | some _ =>
    let db1 := setProcessing db pid
    match env.storeFail with
    | some m => mark_project_failed db1 pid m
    | none =>
      let files := projectFiles db1 pid
      if files = [] then mark_project_completed db1 pid
      else
        let db2 := fileLoop env pid files db1
        let db3 := (correlate_issues env db2 pid).1
        let db4 := (generate_fix_suggestions env db3 pid).1
        mark_project_completed db4 pid

/-! ## Upload guard (`api_routes.py`, `upload_file`) -/

/-- `upload_file` (the store-side effects only): rejected unless the project
exists, is accepting uploads, the fields are non-empty, the filename is new
for the project and the expected file count is not yet reached; an accepted
upload stores the file and moves an `INITIALIZING` project to `PROCESSING`. -/
def uploadFile (db : DB) (pid : Nat) (filename content ftype : String) (nfid : Nat) : DB :=
  match getProject db pid with
  | none => db
  | some p =>
    if p.status = ProjectStatus.INITIALIZING ∨ p.status = ProjectStatus.PROCESSING then
      if filename = "" ∨ content = "" then db
      else if (db.files.filter fun f =>
          decide (f.project_id = pid) && decide (f.filename = filename)).length ≠ 0 then db
      else if (projectFiles db pid).length ≥ p.total_files then db
      else
        let db' : DB := { db with files := db.files ++
          [{ id := nfid, project_id := pid, filename := filename, content := content,
             file_type := ftype, processed := false }] }
        if p.status = ProjectStatus.INITIALIZING then
          updateProject db' pid fun q => { q with status := ProjectStatus.PROCESSING }
        else db'
    else db

/-! ## Derived definitions used by the statements and proofs -/

/-- An issue with its `related_files` side-channel blanked: two issues agree
under `exceptRelated` exactly when every column except `related_files` is
equal. -/
def exceptRelated (i : IssueRec) : IssueRec := { i with related_files := none }

/-- The `correlated_issues` entry of a confirmed issue's side-channel. -/
def sourceIdsOf (c : IssueRec) : List Nat :=
  match c.related_files with
  | some (RelatedFiles.confirmedMeta l _ _) => l
  | _ => []

/-- What claim C2 requires of a confirmed issue created by the correlator:
it is a cross-file `CONFIRMED` row of the project whose side-channel records
exactly two distinct source issue ids, both ids of `POTENTIAL` issues of the
project that live in different files. -/
def ConfirmedProps (orig : List IssueRec) (pid : Nat) (c : IssueRec) : Prop :=
  c.issue_type = IssueType.CONFIRMED ∧ c.file_id = none ∧ c.project_id = pid ∧
  ∃ a b, sourceIdsOf c = [a, b] ∧ a ≠ b ∧
    ∃ i1 ∈ orig, ∃ i2 ∈ orig,
      i1.id = a ∧ i2.id = b ∧
      i1.issue_type = IssueType.POTENTIAL ∧ i2.issue_type = IssueType.POTENTIAL ∧
      i1.project_id = pid ∧ i2.project_id = pid ∧ i1.file_id ≠ i2.file_id

/-- The row-level effect of `setBackRef`. -/
def annot (k bK : Nat) (i : IssueRec) : IssueRec :=
  if i.id = k then { i with related_files := some (RelatedFiles.backRef bK "source") } else i

/-- Invariant carried through the correlation pass.  `orig` is the issue
table at the start of the pass. -/
def CorrInv (orig : List IssueRec) (pid : Nat) (st : CorrSt) : Prop :=
  (∀ c ∈ st.2, ConfirmedProps orig pid c) ∧
  (∀ i ∈ st.1.issues, (∃ i0 ∈ orig, exceptRelated i = exceptRelated i0) ∨ i ∈ st.2) ∧
  (∀ i0 ∈ orig, ∃ i ∈ st.1.issues, exceptRelated i = exceptRelated i0) ∧
  ((st.1.issues.map fun i => i.id).Nodup) ∧
  (∀ i ∈ st.1.issues, i.id < st.1.nextIssueId) ∧
  (∀ c ∈ st.2, ∀ iid ∈ sourceIdsOf c, ∃ i ∈ st.1.issues, i.id = iid ∧
    ∃ c' ∈ st.2, i.related_files = some (RelatedFiles.backRef c'.id "source") ∧
      iid ∈ sourceIdsOf c')

/-- The ordered index pairs the nested loops of `_correlate_issues`
enumerate: for `x :: xs`, pair `x` with every later element, then recurse. -/
def orderedPairs : List Nat → List (Nat × Nat)
  | [] => []
  | x :: xs => (xs.map fun y => (x, y)) ++ orderedPairs xs

/-! ## Concrete inputs used by witnesses and counterexamples -/

/-- Content matchers whose regex sniffers never fire. -/
def noM : ContentMatchers :=
  ⟨fun _ => false, fun _ => false, fun _ => false, fun _ => false, fun _ => false, fun _ => false⟩

/-- A baseline potential issue used to build concrete scenarios. -/
def exBase : IssueRec :=
  { id := 1, project_id := 1, file_id := some 10, issue_type := IssueType.POTENTIAL,
    title := "a", description := "d", line_number := none, code_snippet := some "",
    severity := "medium", category := "authentication", fix_suggestion := none,
    related_files := some (RelatedFiles.potentialMeta [] (1/2)) }

/-- An `authentication` issue with no correlation keywords. -/
def exAuth : IssueRec := exBase

/-- A `network` issue (different file) with no correlation keywords. -/
def exNet : IssueRec := { exBase with id := 2, file_id := some 11, category := "network" }

/-- An environment whose analyzer answers an empty issue list, whose
correlation check always confirms, and whose suggestion service always
raises. -/
def envCorr : Env :=
  { matchers := noM
    analyze := fun _ _ _ => Except.ok ⟨none, []⟩
    correlate := fun _ _ _ _ => some ⟨true, none, none, none, none⟩
    suggest := fun _ => Except.error "down"
    storeFail := none }

/-- A `database` issue holding the keyword side-channel `["auth"]`. -/
def exDbA : IssueRec :=
  { exBase with
    category := "database"
    related_files := some (RelatedFiles.potentialMeta ["auth"] (1/2)) }

/-- A second `database` issue in another file, same side-channel. -/
def exDbB : IssueRec := { exDbA with id := 2, file_id := some 11 }

/-- A two-file project whose two potential issues are correlation-eligible. -/
def dbCorr : DB :=
  { projects := [{ id := 1, total_files := 2, files_processed := 2,
                   status := ProjectStatus.PROCESSING, error_message := none }]
    files := [{ id := 10, project_id := 1, filename := "a.py", content := "ca",
                file_type := "python", processed := true },
              { id := 11, project_id := 1, filename := "b.py", content := "cb",
                file_type := "python", processed := true }]
    issues := [exDbA, exDbB]
    nextIssueId := 3 }

/-- A raw issue record with every field missing. -/
def rawEmpty : RawIssue := ⟨none, none, none, none, none, none, none, none⟩

/-- Environment whose analyzer answers one completely-unspecified raw issue
record for any file. -/
def envRaw : Env := { envCorr with analyze := fun _ _ _ => Except.ok ⟨none, [rawEmpty]⟩ }

/-- A bare single-file project with no issues. -/
def dbOneFile : DB :=
  { projects := [{ id := 1, total_files := 1, files_processed := 0,
                   status := ProjectStatus.PROCESSING, error_message := none }]
    files := [{ id := 10, project_id := 1, filename := "a.py", content := "ca",
                file_type := "python", processed := false }]
    issues := []
    nextIssueId := 1 }

/-- Environment whose analyzer raises for the file named `"c.py"` and
answers one raw record for every other file. -/
def envMixed : Env :=
  { envCorr with analyze := fun fn _ _ =>
      if fn = "c.py" then Except.error "timeout" else Except.ok ⟨none, [rawEmpty]⟩ }

/-- A fresh two-file project (files `c.py` and `d.py`, nothing processed). -/
def dbTwoFiles : DB :=
  { projects := [{ id := 1, total_files := 2, files_processed := 0,
                   status := ProjectStatus.INITIALIZING, error_message := none }]
    files := [{ id := 10, project_id := 1, filename := "c.py", content := "cc",
                file_type := "python", processed := false },
              { id := 11, project_id := 1, filename := "d.py", content := "cd",
                file_type := "python", processed := false }]
    issues := []
    nextIssueId := 1 }

/-- Environment injecting a store failure at the files query. -/
def envFail : Env := { envCorr with storeFail := some "db down" }

/-- A one-issue project whose single issue already carries a suggestion. -/
def dbSuggest : DB :=
  { projects := [{ id := 1, total_files := 1, files_processed := 1,
                   status := ProjectStatus.PROCESSING, error_message := none }]
    files := []
    issues := [{ exBase with id := 7, fix_suggestion := some "done" }]
    nextIssueId := 8 }

/-- What the correlation snapshot guarantees about each id it contains: the
id names a `POTENTIAL` issue of the project in the issue table at the start
of the pass. -/
def SnapOk (orig : List IssueRec) (pid : Nat) (x : Nat) : Prop :=
  ∃ i0 ∈ orig, i0.id = x ∧ i0.issue_type = IssueType.POTENTIAL ∧ i0.project_id = pid

/-- The failing file of `dbTwoFiles`. -/
def fC : ProjectFile :=
  { id := 10, project_id := 1, filename := "c.py", content := "cc",
    file_type := "python", processed := false }

/-- The single file of `dbOneFile`. -/
def fA : ProjectFile :=
  { id := 10, project_id := 1, filename := "a.py", content := "ca",
    file_type := "python", processed := false }

/-! ## Lemmas and claim theorems -/

lemma find?_map_if {α : Type} (key : α → Nat) (k : Nat) (f : α → α)
    (hf : ∀ x, key (f x) = key x) :
    ∀ l : List α,
      (l.map fun x => if key x = k then f x else x).find? (fun x => decide (key x = k)) =
        (l.find? fun x => decide (key x = k)).map f := by
  intro l
  induction l with
  | nil => rfl
  | cons x xs ih =>
    by_cases hx : key x = k
    · simp [List.find?_cons, hx, hf]
    · simp [List.find?_cons, hx, ih]

lemma getProject_updateProject (db : DB) (pid : Nat) (f : Project → Project)
    (hf : ∀ p, (f p).id = p.id) :
    getProject (updateProject db pid f) pid = (getProject db pid).map f := by
  unfold getProject updateProject
  exact find?_map_if (fun p => p.id) pid f hf db.projects

lemma getProject_eq_of_projects {db1 db2 : DB} (h : db1.projects = db2.projects) (pid : Nat) :
    getProject db1 pid = getProject db2 pid := by
  unfold getProject; rw [h]

/-- **C10.** For a project identifier matching no stored project,
`process_project` returns with the store completely unchanged: no status or
error field moves (in particular nothing is marked `FAILED`) and no issue is
created. -/
theorem c10_missing_project_is_noop (env : Env) (db : DB) (pid : Nat)
    (hp : getProject db pid = none) : process_project env db pid = db := by
  unfold process_project; rw [hp]

/-- Witness for C10 at a concrete store and an absent project id. -/
theorem c10_missing_project_is_noop_witness :
    process_project envCorr dbOneFile 99 = dbOneFile :=
  c10_missing_project_is_noop envCorr dbOneFile 99 (by decide)

/-- **C5.** When a store exception escapes the top-level sequence of
`process_project` (injected at the files query, the first store access not
guarded by an inner handler), the single outermost handler marks the project
`FAILED` with the captured message in `error_message`; nothing else in the
store is touched — no issues are created, no files are modified — and the
run performs no retry. -/
theorem c5_escape_caught_once_marks_failed (env : Env) (db : DB) (pid : Nat) (p : Project)
    (m : String) (hp : getProject db pid = some p) (hm : env.storeFail = some m) :
    getProject (process_project env db pid) pid =
        some { p with
               files_processed := 0
               status := ProjectStatus.FAILED
               error_message := some m } ∧
    (process_project env db pid).files = db.files ∧
    (process_project env db pid).issues = db.issues ∧
    (process_project env db pid).nextIssueId = db.nextIssueId := by
  have hps : process_project env db pid = mark_project_failed (setProcessing db pid) pid m := by
    unfold process_project; rw [hp, hm]
  refine ⟨?_, by rw [hps]; rfl, by rw [hps]; rfl, by rw [hps]; rfl⟩
  rw [hps]
  unfold mark_project_failed setProcessing
  rw [getProject_updateProject _ pid
      (fun p => { p with status := ProjectStatus.FAILED, error_message := some m })
      (fun q => rfl),
    getProject_updateProject _ pid
      (fun p => { p with status := ProjectStatus.PROCESSING, files_processed := 0 })
      (fun q => rfl),
    hp]
  rfl

/-- Witness for C5 on a concrete project and store failure. -/
theorem c5_escape_caught_once_marks_failed_witness :
    getProject (process_project envFail dbTwoFiles 1) 1 =
        some { id := 1, total_files := 2, files_processed := 0,
               status := ProjectStatus.FAILED, error_message := some "db down" } ∧
    (process_project envFail dbTwoFiles 1).issues = dbTwoFiles.issues := by
  have h := c5_escape_caught_once_marks_failed envFail dbTwoFiles 1
    { id := 1, total_files := 2, files_processed := 0,
      status := ProjectStatus.INITIALIZING, error_message := none } "db down"
    (by decide) rfl
  exact ⟨h.1, h.2.2.1⟩

/-- **C8.** `determine_file_type` is a pure total Lean function (hence it
never fails and identical inputs always give identical tags, the first
conjunct); resolution is extension-table first (second conjunct), then — for
non-empty content — ordered content sniffing on the lowered 1000-character
sample (third conjunct), `"unknown"` for empty content (fourth conjunct);
within the sniffing chain the first match wins (fifth and sixth conjuncts)
and `"unknown"` is returned when no sniffer matches (last conjunct). -/
theorem c8_classifier_pure_total_ordered (m : ContentMatchers) (name content : String) :
    (∀ n2 c2, n2 = name → c2 = content →
        determine_file_type m n2 c2 = determine_file_type m name content) ∧
    (∀ t, extensionTag (lowerStr name) = some t → determine_file_type m name content = t) ∧
    (extensionTag (lowerStr name) = none → content ≠ "" →
        determine_file_type m name content = contentSniff m (lowerStr (strTake content 1000))) ∧
    (extensionTag (lowerStr name) = none → content = "" →
        determine_file_type m name content = "unknown") ∧
    (∀ sample, m.pythonPat sample = true → contentSniff m sample = "python") ∧
    (∀ sample, m.pythonPat sample = false → m.javaPat sample = true →
        contentSniff m sample = "java") ∧
    (∀ sample, m.pythonPat sample = false → m.javaPat sample = false → m.jsPat sample = false →
        (containsSub sample "<jmeterTestPlan" || containsSub sample "<TestPlan") = false →
        m.yamlPat sample = false →
        (strStartsWith (strStrip sample) "\x7b" && containsSub sample "\"") = false →
        (strStartsWith (strStrip sample) "<?xml" || m.xmlTagPat sample) = false →
        (strStartsWith sample "#!" && (containsSub sample "bash" || containsSub sample "sh"))
          = false →
        m.sqlPat sample = false →
        contentSniff m sample = "unknown") := by
  refine ⟨?_, ?_, ?_, ?_, ?_, ?_, ?_⟩
  · intro n2 c2 h1 h2; rw [h1, h2]
  · intro t ht; simp only [determine_file_type]; rw [ht]
  · intro ht hc; simp only [determine_file_type]; rw [ht]; simp [hc]
  · intro ht hc; simp only [determine_file_type]; rw [ht]; simp [hc]
  · intro sample hs; unfold contentSniff; rw [hs]; simp
  · intro sample h1 h2; unfold contentSniff; rw [h1, h2]; simp
  · intro sample h1 h2 h3 h4 h5 h6 h7 h8 h9
    unfold contentSniff
    rw [h1, h2, h3, h4, h5, h6, h7, h8, h9]
    simp

/-- Witness for C8: concrete classifications through the theorem. -/
theorem c8_classifier_pure_total_ordered_witness :
    determine_file_type noM "A.PY" "x" = "python" ∧
    determine_file_type noM "data.bin" "" = "unknown" ∧
    contentSniff noM "zzz" = "unknown" := by
  refine ⟨?_, ?_, ?_⟩
  · exact (c8_classifier_pure_total_ordered noM "A.PY" "x").2.1 "python" (by decide)
  · exact (c8_classifier_pure_total_ordered noM "data.bin" "").2.2.2.1 (by decide) rfl
  · exact (c8_classifier_pure_total_ordered noM "data.bin" "").2.2.2.2.2.2 "zzz"
      rfl rfl rfl (by decide) rfl (by decide) (by decide) (by decide) rfl

lemma map_eq_self {α : Type} {f : α → α} :
    ∀ {l : List α}, (∀ a ∈ l, f a = a) → l.map f = l := by
  intro l h
  induction l with
  | nil => rfl
  | cons x xs ih =>
    rw [List.map_cons, h x (by simp), ih fun a ha => h a (by simp [ha])]

lemma fsTruthy_some_iff (t : String) : fsTruthy (some t) = true ↔ t.length ≠ 0 := by
  unfold fsTruthy
  simp [bne_iff_ne]

lemma format_fix_suggestion_truthy (s : Suggestion) :
    fsTruthy (some (format_fix_suggestion s)) = true := by
  rw [fsTruthy_some_iff]
  unfold format_fix_suggestion
  have hpos : 0 < ("ПРЕДЛОЖЕНИЕ ПО ИСПРАВЛЕНИЮ:\n\n" : String).length := by decide
  simp only [String.length_append]
  omega

lemma suggestionFailureText_truthy (e : String) :
    fsTruthy (some (suggestionFailureText e)) = true := by
  rw [fsTruthy_some_iff]
  unfold suggestionFailureText
  have hpos : 0 <
      ("Не удалось создать автоматическое предложение по исправлению: " : String).length := by
    decide
  simp only [String.length_append]
  omega

lemma applySuggestion_of_truthy {env : Env} {pid : Nat} {i : IssueRec}
    (h : fsTruthy i.fix_suggestion = true) : applySuggestion env pid i = i := by
  simp [applySuggestion, h]

lemma applySuggestion_of_other {env : Env} {pid : Nat} {i : IssueRec}
    (h : ¬i.project_id = pid) : applySuggestion env pid i = i := by
  simp [applySuggestion, h]

lemma applySuggestion_truthy (env : Env) (pid : Nat) (i : IssueRec)
    (h : i.project_id = pid) :
    fsTruthy (applySuggestion env pid i).fix_suggestion = true := by
  by_cases ht : fsTruthy i.fix_suggestion = true
  · rw [applySuggestion_of_truthy ht]; exact ht
  · have ht' : fsTruthy i.fix_suggestion = false := by
      revert ht; cases fsTruthy i.fix_suggestion <;> simp
    unfold applySuggestion
    rw [if_pos ⟨h, ht'⟩]
    rcases henv : env.suggest i with e | s
    · simp only [henv]
      exact suggestionFailureText_truthy e
    · simp only [henv]
      exact format_fix_suggestion_truthy s

lemma applySuggestion_core (env : Env) (pid : Nat) (i : IssueRec) :
    (applySuggestion env pid i).id = i.id ∧
    (applySuggestion env pid i).project_id = i.project_id ∧
    (applySuggestion env pid i).file_id = i.file_id ∧
    (applySuggestion env pid i).issue_type = i.issue_type := by
  unfold applySuggestion
  split
  · cases env.suggest i <;> exact ⟨rfl, rfl, rfl, rfl⟩
  · exact ⟨rfl, rfl, rfl, rfl⟩

lemma generate_fix_suggestions_fst_issues (env : Env) (db : DB) (pid : Nat) :
    (generate_fix_suggestions env db pid).1.issues = db.issues.map (applySuggestion env pid) :=
  rfl

/-- **C7.** The fix-suggestion pass is idempotent: an issue of the project
that already carries a non-empty (truthy) suggestion is never among the
issues a suggestion request is issued for (first conjunct), and its stored
suggestion is never overwritten (second conjunct); running the pass a second
time right after a first run performs zero requests and changes nothing, so
every issue keeps exactly the suggestion the first run produced (third
conjunct). -/
theorem c7_fix_suggestions_idempotent (env : Env) (db : DB) (pid : Nat)
    (hids : (db.issues.map fun i => i.id).Nodup) :
    (∀ i ∈ db.issues, i.project_id = pid → fsTruthy i.fix_suggestion = true →
        i.id ∉ (generate_fix_suggestions env db pid).2) ∧
    List.Forall₂ (fun i j => fsTruthy i.fix_suggestion = true → j = i)
      db.issues (generate_fix_suggestions env db pid).1.issues ∧
    generate_fix_suggestions env (generate_fix_suggestions env db pid).1 pid =
      ((generate_fix_suggestions env db pid).1, []) := by
  refine ⟨?_, ?_, ?_⟩
  · intro i hi _ htr hmem
    have hmem' : i.id ∈ (db.issues.filter fun j =>
        decide (j.project_id = pid) && !fsTruthy j.fix_suggestion).map fun j => j.id := hmem
    obtain ⟨j, hjmem, hjid⟩ := List.mem_map.mp hmem'
    obtain ⟨hjdb, hjpred⟩ := List.mem_filter.mp hjmem
    have hji : j = i := List.inj_on_of_nodup_map hids hjdb hi hjid
    subst hji
    rw [Bool.and_eq_true] at hjpred
    rw [htr] at hjpred
    simp at hjpred
  · rw [generate_fix_suggestions_fst_issues, List.forall₂_map_right_iff,
      List.forall₂_same]
    intro i _ htr
    exact applySuggestion_of_truthy htr
  · have hall : ∀ i ∈ (generate_fix_suggestions env db pid).1.issues,
        i.project_id = pid → fsTruthy i.fix_suggestion = true := by
      rw [generate_fix_suggestions_fst_issues]
      intro i hi hproj
      obtain ⟨i0, hi0, rfl⟩ := List.mem_map.mp hi
      have hproj0 : i0.project_id = pid := by
        rw [← (applySuggestion_core env pid i0).2.1]; exact hproj
      exact applySuggestion_truthy env pid i0 hproj0
    have h1 : (generate_fix_suggestions env db pid).1.issues.map (applySuggestion env pid) =
        (generate_fix_suggestions env db pid).1.issues := by
      apply map_eq_self
      intro i hi
      by_cases hproj : i.project_id = pid
      · exact applySuggestion_of_truthy (hall i hi hproj)
      · exact applySuggestion_of_other hproj
    have h2 : ((generate_fix_suggestions env db pid).1.issues.filter fun i =>
        decide (i.project_id = pid) && !fsTruthy i.fix_suggestion) = [] := by
      rw [List.filter_eq_nil_iff]
      intro i hi
      rw [Bool.and_eq_true]
      rintro ⟨hproj, htr⟩
      rw [hall i hi (of_decide_eq_true hproj)] at htr
      simp at htr
    show ({ (generate_fix_suggestions env db pid).1 with
        issues := (generate_fix_suggestions env db pid).1.issues.map (applySuggestion env pid) },
      ((generate_fix_suggestions env db pid).1.issues.filter fun i =>
        decide (i.project_id = pid) && !fsTruthy i.fix_suggestion).map fun i => i.id) =
      ((generate_fix_suggestions env db pid).1, [])
    rw [h1, h2]
    rfl

/-- Witness for C7 on a one-issue project whose issue already has a
suggestion. -/
theorem c7_fix_suggestions_idempotent_witness :
    7 ∉ (generate_fix_suggestions envCorr dbSuggest 1).2 ∧
    generate_fix_suggestions envCorr (generate_fix_suggestions envCorr dbSuggest 1).1 1 =
      ((generate_fix_suggestions envCorr dbSuggest 1).1, []) := by
  have h := c7_fix_suggestions_idempotent envCorr dbSuggest 1 (by decide)
  refine ⟨?_, h.2.2⟩
  have hm : ({ exBase with id := 7, fix_suggestion := some "done" } : IssueRec)
      ∈ dbSuggest.issues := List.mem_singleton.mpr rfl
  exact h.1 _ hm rfl rfl

lemma addRawIssues_snd_map {α : Type} (f : ProjectFile) (proj : IssueRec → α)
    (rproj : RawIssue → α) (hcomm : ∀ nid r, proj (mkPotentialIssue nid f r) = rproj r) :
    ∀ (rs : List RawIssue) (db : DB), ((addRawIssues db f rs).2).map proj = rs.map rproj := by
  intro rs
  induction rs with
  | nil => intro db; rfl
  | cons r rs ih =>
    intro db
    simp only [addRawIssues, List.map_cons]
    rw [hcomm, ih]

lemma analyze_file_snd (env : Env) (db : DB) (f : ProjectFile) (res : AnalysisResult)
    (h : env.analyze f.filename f.content (determine_file_type env.matchers f.filename f.content)
        = Except.ok res)
    (he : res.error = none) :
    (analyze_file env db f).2 = (addRawIssues db f res.issues).2 := by
  simp only [analyze_file]
  rw [h]
  simp [he]

/-- **C9 (amended).** For every raw record the analysis service returns, the
extractor builds a potential issue defaulting the missing fields to the
source's literals: title to `"Неизвестная проблема"` (Russian for "unknown
issue"), description to `"Описание отсутствует"` ("no description"),
severity to `"medium"`, category to `"other"` and code snippet to the empty
string; the line number stays absent when missing and every created issue is
`POTENTIAL`. -/
theorem c9_extractor_defaults (env : Env) (db : DB) (f : ProjectFile) (res : AnalysisResult)
    (h : env.analyze f.filename f.content (determine_file_type env.matchers f.filename f.content)
        = Except.ok res)
    (he : res.error = none) :
    ((analyze_file env db f).2.map fun i => i.title) =
        res.issues.map (fun r => r.title.getD "Неизвестная проблема") ∧
    ((analyze_file env db f).2.map fun i => i.description) =
        res.issues.map (fun r => r.description.getD "Описание отсутствует") ∧
    ((analyze_file env db f).2.map fun i => i.severity) =
        res.issues.map (fun r => r.severity.getD "medium") ∧
    ((analyze_file env db f).2.map fun i => i.category) =
        res.issues.map (fun r => r.category.getD "other") ∧
    ((analyze_file env db f).2.map fun i => i.code_snippet) =
        res.issues.map (fun r => some (r.code_snippet.getD "")) ∧
    ((analyze_file env db f).2.map fun i => i.line_number) =
        res.issues.map (fun r => r.line_number) ∧
    ((analyze_file env db f).2.map fun i => i.issue_type) =
        res.issues.map (fun _ => IssueType.POTENTIAL) := by
  have hs := analyze_file_snd env db f res h he
  refine ⟨?_, ?_, ?_, ?_, ?_, ?_, ?_⟩ <;>
    (rw [hs]; exact addRawIssues_snd_map f _ _ (fun nid r => rfl) res.issues db)

/-- Counterexample to C9 as stated: on a record with every field missing the
created issue's default title is the Russian `"Неизвестная проблема"`, not
the literal `"unknown issue"`, and its default description is
`"Описание отсутствует"`, not the literal `"no description"`. -/
theorem c9_counterexample :
    ((analyze_file envRaw dbOneFile fA).2.map fun i => i.title) = ["Неизвестная проблема"] ∧
    "Неизвестная проблема" ≠ "unknown issue" ∧
    ((analyze_file envRaw dbOneFile fA).2.map fun i => i.description) =
      ["Описание отсутствует"] ∧
    "Описание отсутствует" ≠ "no description" := by
  exact ⟨rfl, by decide, rfl, by decide⟩

/-- Witness for the amended C9 at a concrete run. -/
theorem c9_extractor_defaults_witness :
    ((analyze_file envRaw dbOneFile fA).2.map fun i => i.severity) = ["medium"] ∧
    ((analyze_file envRaw dbOneFile fA).2.map fun i => i.category) = ["other"] := by
  have h := c9_extractor_defaults envRaw dbOneFile fA ⟨none, [rawEmpty]⟩ rfl rfl
  exact ⟨h.2.2.1, h.2.2.2.1⟩

lemma should_check_of_catEq {i1 i2 : IssueRec} (h : i1.category = i2.category) :
    should_check_correlation i1 i2 = true := by
  simp [should_check_correlation, h]

lemma keywordsIntersect_symm {i1 i2 : IssueRec} (h : keywordsIntersect i1 i2 = true) :
    keywordsIntersect i2 i1 = true := by
  unfold keywordsIntersect at h ⊢
  rw [List.any_eq_true] at h ⊢
  obtain ⟨k, hk1, hk2⟩ := h
  exact ⟨k, List.elem_iff.mp hk2, List.elem_iff.mpr hk1⟩

lemma should_check_of_kw {i1 i2 : IssueRec} (h : keywordsIntersect i1 i2 = true) :
    should_check_correlation i1 i2 = true := by
  unfold should_check_correlation
  by_cases h1 : i1.category = i2.category
  · rw [if_pos h1]
  · rw [if_neg h1]
    by_cases h2 : (relatedCategories i1.category).contains i2.category = true
    · rw [if_pos h2]
    · rw [if_neg h2]
      exact h

lemma orderedPairs_mem_left : ∀ {l : List Nat} {a b : Nat}, (a, b) ∈ orderedPairs l → a ∈ l := by
  intro l
  induction l with
  | nil => intro a b h; simp [orderedPairs] at h
  | cons x xs ih =>
    intro a b h
    simp only [orderedPairs, List.mem_append, List.mem_map] at h
    rcases h with ⟨y, _, heq⟩ | h
    · injection heq with h1 _
      subst h1
      exact List.mem_cons_self x xs
    · exact List.mem_cons_of_mem x (ih h)

lemma orderedPairs_mem_right : ∀ {l : List Nat} {a b : Nat}, (a, b) ∈ orderedPairs l → b ∈ l := by
  intro l
  induction l with
  | nil => intro a b h; simp [orderedPairs] at h
  | cons x xs ih =>
    intro a b h
    simp only [orderedPairs, List.mem_append, List.mem_map] at h
    rcases h with ⟨y, hy, heq⟩ | h
    · injection heq with _ h2
      subst h2
      exact List.mem_cons_of_mem x hy
    · exact List.mem_cons_of_mem x (ih h)

lemma orderedPairs_once : ∀ {l : List Nat}, l.Nodup →
    ∀ {a b : Nat}, (a, b) ∈ orderedPairs l → (b, a) ∉ orderedPairs l := by
  intro l
  induction l with
  | nil => intro _ a b h; simp [orderedPairs] at h
  | cons x xs ih =>
    intro hnd a b hab hba
    rw [List.nodup_cons] at hnd
    obtain ⟨hx, hxs⟩ := hnd
    simp only [orderedPairs, List.mem_append, List.mem_map] at hab hba
    rcases hab with ⟨y, hy, heq⟩ | hab
    · injection heq with h1 h2
      subst h1; subst h2
      rcases hba with ⟨z, _, heqz⟩ | hba
      · injection heqz with h3 _
        exact hx (h3 ▸ hy)
      · exact hx (orderedPairs_mem_right hba)
    · rcases hba with ⟨z, _, heqz⟩ | hba
      · injection heqz with h3 _
        exact hx (h3 ▸ orderedPairs_mem_right hab)
      · exact ih hxs hab hba

lemma orderedPairs_nodup : ∀ {l : List Nat}, l.Nodup → (orderedPairs l).Nodup := by
  intro l
  induction l with
  | nil => intro _; simp [orderedPairs]
  | cons x xs ih =>
    intro hnd
    rw [List.nodup_cons] at hnd
    obtain ⟨hx, hxs⟩ := hnd
    simp only [orderedPairs]
    rw [List.nodup_append]
    refine ⟨hxs.map fun a b h => by simpa using h, ih hxs, ?_⟩
    intro p hp hmem
    obtain ⟨y, _, rfl⟩ := List.mem_map.mp hp
    exact hx (orderedPairs_mem_left hmem)

lemma correlate_pass_eq_foldl (env : Env) (pid : Nat) :
    ∀ (ids : List Nat) (st : CorrSt),
      correlate_pass env pid ids st =
        (orderedPairs ids).foldl (fun s q => correlate_step env pid q.1 q.2 s) st := by
  intro ids
  induction ids with
  | nil => intro st; rfl
  | cons x xs ih =>
    intro st
    show correlate_pass env pid xs (correlate_inner env pid x xs st) = _
    rw [ih]
    simp only [orderedPairs, List.foldl_append, List.foldl_map]
    rfl

/-- Counterexample to C3 as stated: the adjacency table is directed, so the
eligibility predicate is not symmetric.  An `authentication` issue paired
with a `network` issue (no shared keywords) is eligible, but the reversed
pair is not: `network`'s table row is `[api, io, timeout]` and does not list
`authentication`. -/
theorem c3_counterexample :
    should_check_correlation exAuth exNet = true ∧
    should_check_correlation exNet exAuth = false :=
  ⟨rfl, rfl⟩

/-- **C3 (amended).** The same-category clause and the shared-keyword clause
of the correlation-eligibility predicate are symmetric (first two
conjuncts), but the adjacency-table clause is directed and makes the full
predicate asymmetric (see the counterexample).  Each unordered pair of the
snapshot is still evaluated at most once per correlation pass: the nested
loops enumerate exactly `orderedPairs` of the snapshot ids (last conjunct),
and for a duplicate-free snapshot that enumeration never repeats an
unordered pair (third conjunct). -/
theorem c3_eligibility_partial_symmetry_evaluated_once :
    (∀ i1 i2 : IssueRec, i1.category = i2.category →
        should_check_correlation i1 i2 = true ∧ should_check_correlation i2 i1 = true) ∧
    (∀ i1 i2 : IssueRec, keywordsIntersect i1 i2 = true →
        should_check_correlation i1 i2 = true ∧ should_check_correlation i2 i1 = true) ∧
    (∀ ids : List Nat, ids.Nodup →
        (orderedPairs ids).Nodup ∧
        ∀ a b : Nat, (a, b) ∈ orderedPairs ids → (b, a) ∉ orderedPairs ids) ∧
    (∀ (env : Env) (pid : Nat) (ids : List Nat) (st : CorrSt),
        correlate_pass env pid ids st =
          (orderedPairs ids).foldl (fun s q => correlate_step env pid q.1 q.2 s) st) := by
  refine ⟨?_, ?_, ?_, ?_⟩
  · intro i1 i2 h
    exact ⟨should_check_of_catEq h, should_check_of_catEq h.symm⟩
  · intro i1 i2 h
    exact ⟨should_check_of_kw h, should_check_of_kw (keywordsIntersect_symm h)⟩
  · intro ids h
    exact ⟨orderedPairs_nodup h, fun a b hab => orderedPairs_once h hab⟩
  · intro env pid ids st
    exact correlate_pass_eq_foldl env pid ids st

/-- Witness for the amended C3 at concrete issues and a concrete snapshot. -/
theorem c3_eligibility_partial_symmetry_evaluated_once_witness :
    (should_check_correlation exDbA exDbB = true ∧
      should_check_correlation exDbB exDbA = true) ∧
    ((orderedPairs [1, 2, 3]).Nodup ∧
      ∀ a b : Nat, (a, b) ∈ orderedPairs [1, 2, 3] → (b, a) ∉ orderedPairs [1, 2, 3]) := by
  have h := c3_eligibility_partial_symmetry_evaluated_once
  exact ⟨h.1 exDbA exDbB rfl, h.2.2.1 [1, 2, 3] (by decide)⟩

lemma findIssue_some {db : DB} {iid : Nat} {i : IssueRec} (h : findIssue db iid = some i) :
    i ∈ db.issues ∧ i.id = iid := by
  unfold findIssue at h
  have hm := List.mem_of_find?_eq_some h
  have hp := List.find?_some h
  simp only [decide_eq_true_eq] at hp
  exact ⟨hm, hp⟩

lemma annot_id (k bK : Nat) (i : IssueRec) : (annot k bK i).id = i.id := by
  unfold annot; split <;> rfl

lemma annot_exceptRelated (k bK : Nat) (i : IssueRec) :
    exceptRelated (annot k bK i) = exceptRelated i := by
  unfold annot exceptRelated; split <;> rfl

lemma annot_of_ne {k : Nat} (bK : Nat) {i : IssueRec} (h : ¬i.id = k) : annot k bK i = i :=
  if_neg h

lemma annot_of_eq {k : Nat} (bK : Nat) {i : IssueRec} (h : i.id = k) :
    annot k bK i = { i with related_files := some (RelatedFiles.backRef bK "source") } :=
  if_pos h

lemma setBackRef_issues (db : DB) (k bK : Nat) :
    (setBackRef db k bK).issues = db.issues.map (annot k bK) := rfl

lemma er_id {x y : IssueRec} (h : exceptRelated x = exceptRelated y) : x.id = y.id := by
  have h2 := congrArg IssueRec.id h
  exact h2

lemma er_project_id {x y : IssueRec} (h : exceptRelated x = exceptRelated y) :
    x.project_id = y.project_id := by
  have h2 := congrArg IssueRec.project_id h
  exact h2

lemma er_file_id {x y : IssueRec} (h : exceptRelated x = exceptRelated y) :
    x.file_id = y.file_id := by
  have h2 := congrArg IssueRec.file_id h
  exact h2

lemma er_issue_type {x y : IssueRec} (h : exceptRelated x = exceptRelated y) :
    x.issue_type = y.issue_type := by
  have h2 := congrArg IssueRec.issue_type h
  exact h2

lemma cc_fst_issues (db : DB) (i1 i2 : IssueRec) (corr : CorrelationResult) (pid : Nat) :
    (create_confirmed_issue db i1 i2 corr pid).1.issues =
      db.issues ++ [(create_confirmed_issue db i1 i2 corr pid).2] := rfl

lemma cc_snd_sources (db : DB) (i1 i2 : IssueRec) (corr : CorrelationResult) (pid : Nat) :
    sourceIdsOf (create_confirmed_issue db i1 i2 corr pid).2 = [i1.id, i2.id] := rfl

lemma snap_match (orig : List IssueRec) (pid : Nat) (st : CorrSt)
    (hC : ∀ i0 ∈ orig, ∃ i ∈ st.1.issues, exceptRelated i = exceptRelated i0)
    (hD : (st.1.issues.map fun i => i.id).Nodup)
    {x : Nat} {ix : IssueRec} (hmem : ix ∈ st.1.issues) (hid : ix.id = x)
    (hS : SnapOk orig pid x) :
    ∃ i0 ∈ orig, exceptRelated ix = exceptRelated i0 ∧ i0.id = x ∧
      i0.issue_type = IssueType.POTENTIAL ∧ i0.project_id = pid := by
  obtain ⟨i0, hi0mem, hi0id, hi0t, hi0p⟩ := hS
  obtain ⟨j, hjmem, hjer⟩ := hC i0 hi0mem
  have hjid : j.id = ix.id := by rw [er_id hjer, hi0id, hid]
  have hj : j = ix := List.inj_on_of_nodup_map hD hjmem hmem hjid
  exact ⟨i0, hi0mem, hj ▸ hjer, hi0id, hi0t, hi0p⟩

lemma setBackRef_nextId (db : DB) (k bK : Nat) :
    (setBackRef db k bK).nextIssueId = db.nextIssueId := rfl

lemma cc_fst_nextId (db : DB) (i1 i2 : IssueRec) (corr : CorrelationResult) (pid : Nat) :
    (create_confirmed_issue db i1 i2 corr pid).1.nextIssueId = db.nextIssueId + 1 := rfl

lemma corrInv_pair (orig : List IssueRec) (pid : Nat) (dbx : DB) (cs : List IssueRec) :
    CorrInv orig pid (dbx, cs) ↔
      ((∀ c ∈ cs, ConfirmedProps orig pid c) ∧
       (∀ i ∈ dbx.issues, (∃ i0 ∈ orig, exceptRelated i = exceptRelated i0) ∨ i ∈ cs) ∧
       (∀ i0 ∈ orig, ∃ i ∈ dbx.issues, exceptRelated i = exceptRelated i0) ∧
       ((dbx.issues.map fun i => i.id).Nodup) ∧
       (∀ i ∈ dbx.issues, i.id < dbx.nextIssueId) ∧
       (∀ c ∈ cs, ∀ iid ∈ sourceIdsOf c, ∃ i ∈ dbx.issues, i.id = iid ∧
         ∃ c' ∈ cs, i.related_files = some (RelatedFiles.backRef c'.id "source") ∧
           iid ∈ sourceIdsOf c')) :=
  Iff.rfl

lemma corr_step_inv (env : Env) (orig : List IssueRec) (pid a b : Nat) (st : CorrSt)
    (hSa : SnapOk orig pid a) (hSb : SnapOk orig pid b)
    (h : CorrInv orig pid st) : CorrInv orig pid (correlate_step env pid a b st) := by
  unfold correlate_step
  rcases h1 : findIssue st.1 a with _ | i1 <;> rcases h2 : findIssue st.1 b with _ | i2 <;>
    simp only [h1, h2]
  · exact h
  · exact h
  · exact h
  by_cases hff : i1.file_id = i2.file_id
  · rw [if_pos hff]; exact h
  rw [if_neg hff]
  by_cases hsc : should_check_correlation i1 i2 = true
  case neg => rw [if_neg hsc]; exact h
  rw [if_pos hsc]
  rcases hcorr : check_issue_correlation env st.1 i1 i2 with _ | corr <;> simp only [hcorr]
  · exact h
  by_cases hic : corr.is_correlated = true
  case neg => rw [if_neg hic]; exact h
  rw [if_pos hic]
  obtain ⟨hA, hB, hC, hD, hE, hG⟩ := h
  obtain ⟨hi1mem, hi1id⟩ := findIssue_some h1
  obtain ⟨hi2mem, hi2id⟩ := findIssue_some h2
  obtain ⟨i0a, hi0amem, her1, hi0aid, hi0at, hi0ap⟩ :=
    snap_match orig pid st hC hD hi1mem hi1id hSa
  obtain ⟨i0b, hi0bmem, her2, hi0bid, hi0bt, hi0bp⟩ :=
    snap_match orig pid st hC hD hi2mem hi2id hSb
  have hi1t : i1.issue_type = IssueType.POTENTIAL := (er_issue_type her1).trans hi0at
  have hi2t : i2.issue_type = IssueType.POTENTIAL := (er_issue_type her2).trans hi0bt
  have hab : ¬i1.id = i2.id := by
    intro hEq
    exact hff (congrArg IssueRec.file_id (List.inj_on_of_nodup_map hD hi1mem hi2mem hEq))
  set ci := (create_confirmed_issue st.1 i1 i2 corr pid).2 with hci
  have hciN : ci.id = st.1.nextIssueId := rfl
  have hneci1 : ¬ci.id = i1.id := by have h5 := hE i1 hi1mem; omega
  have hneci2 : ¬ci.id = i2.id := by have h5 := hE i2 hi2mem; omega
  have hg_id : ∀ j : IssueRec, (annot i2.id ci.id (annot i1.id ci.id j)).id = j.id := by
    intro j; rw [annot_id, annot_id]
  have hg_er : ∀ j : IssueRec,
      exceptRelated (annot i2.id ci.id (annot i1.id ci.id j)) = exceptRelated j := by
    intro j; rw [annot_exceptRelated, annot_exceptRelated]
  have hg_old : ∀ j : IssueRec, ¬j.id = i1.id → ¬j.id = i2.id →
      annot i2.id ci.id (annot i1.id ci.id j) = j := by
    intro j hn1 hn2
    rw [annot_of_ne ci.id hn1, annot_of_ne ci.id hn2]
  have hg_one : ∀ j : IssueRec, j.id = i1.id →
      annot i2.id ci.id (annot i1.id ci.id j) =
        { j with related_files := some (RelatedFiles.backRef ci.id "source") } := by
    intro j hj
    rw [annot_of_eq ci.id hj]
    apply annot_of_ne
    show ¬j.id = i2.id
    rw [hj]; exact hab
  have hg_two : ∀ j : IssueRec, j.id = i2.id →
      annot i2.id ci.id (annot i1.id ci.id j) =
        { j with related_files := some (RelatedFiles.backRef ci.id "source") } := by
    intro j hj
    have hne : ¬j.id = i1.id := by rw [hj]; intro hEq; exact hab hEq.symm
    rw [annot_of_ne ci.id hne, annot_of_eq ci.id hj]
  have hg_ci : annot i2.id ci.id (annot i1.id ci.id ci) = ci := hg_old ci hneci1 hneci2
  have hiss : (setBackRef
      (setBackRef (create_confirmed_issue st.1 i1 i2 corr pid).1 i1.id ci.id)
      i2.id ci.id).issues =
      (st.1.issues ++ [ci]).map fun j => annot i2.id ci.id (annot i1.id ci.id j) := by
    rw [setBackRef_issues, setBackRef_issues, cc_fst_issues, List.map_map]
    rfl
  have hsrc_ci : sourceIdsOf ci = [i1.id, i2.id] := rfl
  rw [corrInv_pair, hiss]
  simp only [setBackRef_nextId, cc_fst_nextId]
  refine ⟨?_, ?_, ?_, ?_, ?_, ?_⟩
  · -- every accumulated confirmed issue has the C2 shape
    intro c hc
    rcases List.mem_append.mp hc with hold | hnew
    · exact hA c hold
    · rw [List.mem_singleton.mp hnew]
      refine ⟨rfl, rfl, rfl, i1.id, i2.id, hsrc_ci, hab, i0a, hi0amem, i0b, hi0bmem,
        hi0aid.trans hi1id.symm, hi0bid.trans hi2id.symm, hi0at, hi0bt, hi0ap, hi0bp, ?_⟩
      intro hEq
      apply hff
      rw [er_file_id her1, er_file_id her2]
      exact hEq
  · -- every stored issue is an original (up to its side-channel) or a new confirmed one
    intro i' hi'
    obtain ⟨j, hj, rfl⟩ := List.mem_map.mp hi'
    rcases List.mem_append.mp hj with hjold | hjci
    · rcases hB j hjold with ⟨i0, hi0, her⟩ | hjconf
      · exact Or.inl ⟨i0, hi0, (hg_er j).trans her⟩
      · have hjt : j.issue_type = IssueType.CONFIRMED := (hA j hjconf).1
        have hne1 : ¬j.id = i1.id := by
          intro hEq
          have hj1 : j = i1 := List.inj_on_of_nodup_map hD hjold hi1mem hEq
          rw [hj1, hi1t] at hjt
          exact IssueType.noConfusion hjt
        have hne2 : ¬j.id = i2.id := by
          intro hEq
          have hj2 : j = i2 := List.inj_on_of_nodup_map hD hjold hi2mem hEq
          rw [hj2, hi2t] at hjt
          exact IssueType.noConfusion hjt
        rw [hg_old j hne1 hne2]
        exact Or.inr (List.mem_append_left _ hjconf)
    · rw [List.mem_singleton.mp hjci, hg_ci]
      exact Or.inr (List.mem_append_right _ (List.mem_singleton_self ci))
  · -- no original issue is deleted
    intro i0 hi0
    obtain ⟨i, hi, her⟩ := hC i0 hi0
    exact ⟨annot i2.id ci.id (annot i1.id ci.id i),
      List.mem_map_of_mem _ (List.mem_append_left _ hi), (hg_er i).trans her⟩
  · -- ids stay duplicate-free
    rw [List.map_map]
    have hcomp : ((fun i : IssueRec => i.id) ∘ fun j => annot i2.id ci.id (annot i1.id ci.id j))
        = fun j : IssueRec => j.id := by
      funext j; exact hg_id j
    rw [hcomp, List.map_append]
    simp only [List.map_cons, List.map_nil]
    rw [List.nodup_append]
    refine ⟨hD, List.nodup_singleton _, ?_⟩
    intro x hx hx2
    rw [List.mem_singleton] at hx2
    obtain ⟨i, himem, hid⟩ := List.mem_map.mp hx
    have h5 := hE i himem
    omega
  · -- ids stay below the id counter
    intro i' hi'
    obtain ⟨j, hj, rfl⟩ := List.mem_map.mp hi'
    rw [hg_id j]
    rcases List.mem_append.mp hj with hjold | hjci
    · exact Nat.lt_succ_of_lt (hE j hjold)
    · rw [List.mem_singleton.mp hjci]
      exact Nat.lt_succ_self _
  · -- every source of an accumulated confirmed issue carries a back-reference
    have hmem1 : ({ i1 with related_files := some (RelatedFiles.backRef ci.id "source") }
        : IssueRec) ∈
        (st.1.issues ++ [ci]).map fun j => annot i2.id ci.id (annot i1.id ci.id j) := by
      rw [← hg_one i1 rfl]
      exact List.mem_map_of_mem _ (List.mem_append_left _ hi1mem)
    have hmem2 : ({ i2 with related_files := some (RelatedFiles.backRef ci.id "source") }
        : IssueRec) ∈
        (st.1.issues ++ [ci]).map fun j => annot i2.id ci.id (annot i1.id ci.id j) := by
      rw [← hg_two i2 rfl]
      exact List.mem_map_of_mem _ (List.mem_append_left _ hi2mem)
    intro c hc iid hiid
    rcases List.mem_append.mp hc with hold | hnew
    · obtain ⟨i, himem, hiid_eq, c', hc'm, hrel, hsrcc⟩ := hG c hold iid hiid
      by_cases hq1 : iid = i1.id
      · refine ⟨{ i1 with related_files := some (RelatedFiles.backRef ci.id "source") },
          hmem1, ?_, ci, List.mem_append_right _ (List.mem_singleton_self ci), rfl, ?_⟩
        · show i1.id = iid
          exact hq1.symm
        · rw [hsrc_ci, hq1]
          exact List.mem_cons_self _ _
      · by_cases hq2 : iid = i2.id
        · refine ⟨{ i2 with related_files := some (RelatedFiles.backRef ci.id "source") },
            hmem2, ?_, ci, List.mem_append_right _ (List.mem_singleton_self ci), rfl, ?_⟩
          · show i2.id = iid
            exact hq2.symm
          · rw [hsrc_ci, hq2]
            exact List.mem_cons_of_mem _ (List.mem_singleton_self _)
        · have hg_i : annot i2.id ci.id (annot i1.id ci.id i) = i := by
            apply hg_old i
            · rw [hiid_eq]; exact hq1
            · rw [hiid_eq]; exact hq2
          refine ⟨i, ?_, hiid_eq, c', List.mem_append_left _ hc'm, hrel, hsrcc⟩
          rw [← hg_i]
          exact List.mem_map_of_mem _ (List.mem_append_left _ himem)
    · rw [List.mem_singleton.mp hnew, hsrc_ci] at hiid
      rcases List.mem_cons.mp hiid with hq1 | hq2'
      · refine ⟨{ i1 with related_files := some (RelatedFiles.backRef ci.id "source") },
          hmem1, ?_, ci, List.mem_append_right _ (List.mem_singleton_self ci), rfl, ?_⟩
        · show i1.id = iid
          exact hq1.symm
        · rw [hsrc_ci, hq1]
          exact List.mem_cons_self _ _
      · have hq2 : iid = i2.id := List.mem_singleton.mp hq2'
        refine ⟨{ i2 with related_files := some (RelatedFiles.backRef ci.id "source") },
          hmem2, ?_, ci, List.mem_append_right _ (List.mem_singleton_self ci), rfl, ?_⟩
        · show i2.id = iid
          exact hq2.symm
        · rw [hsrc_ci, hq2]
          exact List.mem_cons_of_mem _ (List.mem_singleton_self _)

lemma corr_inner_inv (env : Env) (orig : List IssueRec) (pid x : Nat)
    (hx : SnapOk orig pid x) :
    ∀ (ids : List Nat) (st : CorrSt), (∀ y ∈ ids, SnapOk orig pid y) →
      CorrInv orig pid st → CorrInv orig pid (correlate_inner env pid x ids st) := by
  intro ids
  induction ids with
  | nil => intro st _ h; exact h
  | cons y ys ih =>
    intro st hS h
    show CorrInv orig pid (correlate_inner env pid x ys (correlate_step env pid x y st))
    exact ih _ (fun z hz => hS z (List.mem_cons_of_mem y hz))
      (corr_step_inv env orig pid x y st hx (hS y (List.mem_cons_self y ys)) h)

lemma corr_pass_inv (env : Env) (orig : List IssueRec) (pid : Nat) :
    ∀ (ids : List Nat) (st : CorrSt), (∀ x ∈ ids, SnapOk orig pid x) →
      CorrInv orig pid st → CorrInv orig pid (correlate_pass env pid ids st) := by
  intro ids
  induction ids with
  | nil => intro st _ h; exact h
  | cons x xs ih =>
    intro st hS h
    show CorrInv orig pid (correlate_pass env pid xs (correlate_inner env pid x xs st))
    exact ih _ (fun y hy => hS y (List.mem_cons_of_mem x hy))
      (corr_inner_inv env orig pid x (hS x (List.mem_cons_self x xs)) xs st
        (fun y hy => hS y (List.mem_cons_of_mem x hy)) h)

lemma snap_of_potential (db : DB) (pid : Nat) :
    ∀ x ∈ (projectPotentialIssues db pid).map fun i => i.id, SnapOk db.issues pid x := by
  intro x hx
  obtain ⟨i, hi, rfl⟩ := List.mem_map.mp hx
  obtain ⟨hmem, hpred⟩ := List.mem_filter.mp hi
  rw [Bool.and_eq_true, decide_eq_true_eq, decide_eq_true_eq] at hpred
  exact ⟨i, hmem, rfl, hpred.2, hpred.1⟩

lemma corrInv_init (db : DB) (pid : Nat)
    (hids : (db.issues.map fun i => i.id).Nodup)
    (hbound : ∀ i ∈ db.issues, i.id < db.nextIssueId) :
    CorrInv db.issues pid (db, []) := by
  refine ⟨?_, ?_, ?_, hids, hbound, ?_⟩
  · intro c hc; simp at hc
  · intro i hi; exact Or.inl ⟨i, hi, rfl⟩
  · intro i0 h0; exact ⟨i0, h0, rfl⟩
  · intro c hc; simp at hc

lemma correlate_issues_inv (env : Env) (db : DB) (pid : Nat)
    (hids : (db.issues.map fun i => i.id).Nodup)
    (hbound : ∀ i ∈ db.issues, i.id < db.nextIssueId) :
    CorrInv db.issues pid (correlate_issues env db pid) := by
  unfold correlate_issues
  exact corr_pass_inv env db.issues pid _ (db, []) (snap_of_potential db pid)
    (corrInv_init db pid hids hbound)

/-- **C2.** Every confirmed issue the correlation pass creates is a
cross-file `CONFIRMED` row of the project whose side-channel records exactly
two distinct source issue ids; both ids belong to `POTENTIAL` issues of the
project present when the pass started, and those two source issues live in
different files (same-file pairs are never correlated).  The hypotheses are
the store invariants of the primary-key column: duplicate-free ids below the
id counter. -/
theorem c2_confirmed_issue_two_distinct_sources (env : Env) (db : DB) (pid : Nat)
    (hids : (db.issues.map fun i => i.id).Nodup)
    (hbound : ∀ i ∈ db.issues, i.id < db.nextIssueId) :
    ∀ c ∈ (correlate_issues env db pid).2, ConfirmedProps db.issues pid c :=
  (correlate_issues_inv env db pid hids hbound).1

/-- Witness for C2: a two-file project whose two potential issues correlate;
every created confirmed issue satisfies `ConfirmedProps`. -/
theorem c2_confirmed_issue_two_distinct_sources_witness :
    List.Forall (ConfirmedProps dbCorr.issues 1) (correlate_issues envCorr dbCorr 1).2 :=
  List.forall_iff_forall_mem.mpr
    (c2_confirmed_issue_two_distinct_sources envCorr dbCorr 1 (by decide) (by decide))

/-- Counterexample to C4 as stated: the back-reference write replaces the
whole `related_files` side-channel.  In the concrete correlated run the
stored source issue (id 1) ends with the bare back-reference dictionary, its
previously stored correlation keywords `["auth"]` are gone. -/
theorem c4_counterexample :
    ((correlate_issues envCorr dbCorr 1).1.issues.head?.map fun i => i.related_files) =
      some (some (RelatedFiles.backRef 3 "source")) ∧
    getKeywords exDbA.related_files = ["auth"] ∧
    ((correlate_issues envCorr dbCorr 1).1.issues.head?.map fun i =>
        getKeywords i.related_files) = some [] ∧
    some (RelatedFiles.backRef 3 "source") ≠ exDbA.related_files := by
  exact ⟨rfl, rfl, rfl, by decide⟩

/-- **C4 (amended).** When a confirmed issue is created from two potential
issues, both source issues are annotated with a back-reference to a
confirmed issue created in the pass whose source list contains them; the
annotation leaves every column except `related_files` unchanged and deletes
nothing (every original issue survives up to its side-channel), but it
overwrites the `related_files` side-channel, so the previously stored
correlation keywords/confidence are lost (see the counterexample). -/
theorem c4_backref_annotation_overwrites_side_channel (env : Env) (db : DB) (pid : Nat)
    (hids : (db.issues.map fun i => i.id).Nodup)
    (hbound : ∀ i ∈ db.issues, i.id < db.nextIssueId) :
    (∀ i0 ∈ db.issues, ∃ i ∈ (correlate_issues env db pid).1.issues,
        exceptRelated i = exceptRelated i0) ∧
    (∀ c ∈ (correlate_issues env db pid).2, ∀ iid ∈ sourceIdsOf c,
        ∃ i ∈ (correlate_issues env db pid).1.issues, i.id = iid ∧
          ∃ c' ∈ (correlate_issues env db pid).2,
            i.related_files = some (RelatedFiles.backRef c'.id "source") ∧
            iid ∈ sourceIdsOf c') := by
  have h := correlate_issues_inv env db pid hids hbound
  exact ⟨h.2.2.1, h.2.2.2.2.2⟩

/-- Witness for the amended C4 on the concrete correlated run. -/
theorem c4_backref_annotation_overwrites_side_channel_witness :
    (∀ i0 ∈ dbCorr.issues, ∃ i ∈ (correlate_issues envCorr dbCorr 1).1.issues,
        exceptRelated i = exceptRelated i0) ∧
    (∀ c ∈ (correlate_issues envCorr dbCorr 1).2, ∀ iid ∈ sourceIdsOf c,
        ∃ i ∈ (correlate_issues envCorr dbCorr 1).1.issues, i.id = iid ∧
          ∃ c' ∈ (correlate_issues envCorr dbCorr 1).2,
            i.related_files = some (RelatedFiles.backRef c'.id "source") ∧
            iid ∈ sourceIdsOf c') :=
  c4_backref_annotation_overwrites_side_channel envCorr dbCorr 1 (by decide) (by decide)

lemma addRawIssues_projects (f : ProjectFile) :
    ∀ (rs : List RawIssue) (db : DB), (addRawIssues db f rs).1.projects = db.projects := by
  intro rs
  induction rs with
  | nil => intro db; rfl
  | cons r rs ih => intro db; exact ih _

lemma addRawIssues_files (f : ProjectFile) :
    ∀ (rs : List RawIssue) (db : DB), (addRawIssues db f rs).1.files = db.files := by
  intro rs
  induction rs with
  | nil => intro db; rfl
  | cons r rs ih => intro db; exact ih _

lemma addRawIssues_issues (f : ProjectFile) :
    ∀ (rs : List RawIssue) (db : DB),
      (addRawIssues db f rs).1.issues = db.issues ++ (addRawIssues db f rs).2 := by
  intro rs
  induction rs with
  | nil => intro db; simp [addRawIssues]
  | cons r rs ih =>
    intro db
    show (addRawIssues { db with
        issues := db.issues ++ [mkPotentialIssue db.nextIssueId f r],
        nextIssueId := db.nextIssueId + 1 } f rs).1.issues = _
    rw [ih]
    show (db.issues ++ [mkPotentialIssue db.nextIssueId f r]) ++ _ = _
    rw [List.append_assoc, List.singleton_append]
    rfl

lemma addRawIssues_created (f : ProjectFile) :
    ∀ (rs : List RawIssue) (db : DB), ∀ i ∈ (addRawIssues db f rs).2,
      i.file_id = some f.id ∧ i.project_id = f.project_id ∧
      i.issue_type = IssueType.POTENTIAL := by
  intro rs
  induction rs with
  | nil => intro db i hi; simp [addRawIssues] at hi
  | cons r rs ih =>
    intro db i hi
    rcases List.mem_cons.mp hi with heq | hi'
    · rw [heq]; exact ⟨rfl, rfl, rfl⟩
    · exact ih _ i hi'

lemma analyze_file_fails (env : Env) (f : ProjectFile) (db : DB)
    (h : analysisFails env f = true) : analyze_file env db f = (db, []) := by
  unfold analysisFails at h
  unfold analyze_file
  rcases ha : env.analyze f.filename f.content
      (determine_file_type env.matchers f.filename f.content) with e | res <;>
    simp only [ha] at h ⊢
  rw [if_pos h]

lemma analyze_file_ok_shape (env : Env) (f : ProjectFile) (db : DB)
    (h : analysisFails env f = false) :
    ∃ res : AnalysisResult,
      env.analyze f.filename f.content (determine_file_type env.matchers f.filename f.content)
        = Except.ok res ∧ res.error.isSome = false ∧
      analyze_file env db f =
        (markFileProcessed (addRawIssues db f res.issues).1 f.id,
         (addRawIssues db f res.issues).2) := by
  unfold analysisFails at h
  rcases ha : env.analyze f.filename f.content
      (determine_file_type env.matchers f.filename f.content) with e | res <;>
    simp only [ha] at h
  · exact absurd h (by simp)
  · refine ⟨res, rfl, h, ?_⟩
    unfold analyze_file
    simp only [ha]
    rw [if_neg (by simp [h])]

lemma analyze_file_projects (env : Env) (db : DB) (f : ProjectFile) :
    (analyze_file env db f).1.projects = db.projects := by
  by_cases hf : analysisFails env f = true
  · rw [analyze_file_fails env f db hf]
  · have h : analysisFails env f = false := by revert hf; cases analysisFails env f <;> simp
    obtain ⟨res, _, _, heq⟩ := analyze_file_ok_shape env f db h
    rw [heq]
    show (addRawIssues db f res.issues).1.projects = db.projects
    exact addRawIssues_projects f res.issues db

lemma getProject_incrementProcessed (db : DB) (pid : Nat) :
    getProject (incrementProcessed db pid) pid =
      (getProject db pid).map fun p => { p with files_processed := p.files_processed + 1 } := by
  unfold incrementProcessed
  exact getProject_updateProject db pid _ (fun q => rfl)

lemma getProject_mark_completed (db : DB) (pid : Nat) :
    getProject (mark_project_completed db pid) pid =
      (getProject db pid).map fun q => { q with status := ProjectStatus.COMPLETED } := by
  unfold mark_project_completed
  exact getProject_updateProject db pid _ (fun q => rfl)

lemma getProject_setProcessing (db : DB) (pid : Nat) (p : Project)
    (hp : getProject db pid = some p) :
    getProject (setProcessing db pid) pid =
      some { p with status := ProjectStatus.PROCESSING, files_processed := 0 } := by
  unfold setProcessing
  rw [getProject_updateProject db pid
    (fun q => { q with status := ProjectStatus.PROCESSING, files_processed := 0 })
    (fun q => rfl), hp]
  rfl

lemma fileLoop_getProject (env : Env) (pid : Nat) :
    ∀ (fs : List ProjectFile) (db : DB),
      getProject (fileLoop env pid fs db) pid =
        (getProject db pid).map fun p =>
          { p with files_processed := p.files_processed + fs.length } := by
  intro fs
  induction fs with
  | nil =>
    intro db
    show getProject db pid = _
    cases h : getProject db pid
    · rfl
    · rfl
  | cons f fs ih =>
    intro db
    show getProject (fileLoop env pid fs (incrementProcessed (analyze_file env db f).1 pid))
        pid = _
    rw [ih, getProject_incrementProcessed,
      getProject_eq_of_projects (analyze_file_projects env db f) pid]
    cases h : getProject db pid
    · rfl
    · rename_i p
      have hx : p.files_processed + 1 + fs.length = p.files_processed + (fs.length + 1) := by
        omega
      simp only [Option.map_some']
      rw [hx]
      rfl

lemma annot_file_id (k bK : Nat) (i : IssueRec) : (annot k bK i).file_id = i.file_id := by
  unfold annot; split <;> rfl

lemma annot_project_id (k bK : Nat) (i : IssueRec) :
    (annot k bK i).project_id = i.project_id := by
  unfold annot; split <;> rfl

lemma correlate_step_projects (env : Env) (pid a b : Nat) (st : CorrSt) :
    (correlate_step env pid a b st).1.projects = st.1.projects := by
  unfold correlate_step
  rcases h1 : findIssue st.1 a with _ | i1 <;> rcases h2 : findIssue st.1 b with _ | i2 <;>
    simp only [h1, h2]
  by_cases hff : i1.file_id = i2.file_id
  · rw [if_pos hff]
  rw [if_neg hff]
  by_cases hsc : should_check_correlation i1 i2 = true
  case neg => rw [if_neg hsc]
  rw [if_pos hsc]
  rcases hc : check_issue_correlation env st.1 i1 i2 with _ | corr <;> simp only [hc]
  by_cases hic : corr.is_correlated = true
  case neg => rw [if_neg hic]
  rw [if_pos hic]
  rfl

lemma correlate_step_files (env : Env) (pid a b : Nat) (st : CorrSt) :
    (correlate_step env pid a b st).1.files = st.1.files := by
  unfold correlate_step
  rcases h1 : findIssue st.1 a with _ | i1 <;> rcases h2 : findIssue st.1 b with _ | i2 <;>
    simp only [h1, h2]
  by_cases hff : i1.file_id = i2.file_id
  · rw [if_pos hff]
  rw [if_neg hff]
  by_cases hsc : should_check_correlation i1 i2 = true
  case neg => rw [if_neg hsc]
  rw [if_pos hsc]
  rcases hc : check_issue_correlation env st.1 i1 i2 with _ | corr <;> simp only [hc]
  by_cases hic : corr.is_correlated = true
  case neg => rw [if_neg hic]
  rw [if_pos hic]
  rfl

lemma correlate_step_issues_mem (env : Env) (pid a b : Nat) (st : CorrSt) :
    ∀ i' ∈ (correlate_step env pid a b st).1.issues,
      (∃ j ∈ st.1.issues, i'.file_id = j.file_id ∧ i'.project_id = j.project_id) ∨
      (i'.file_id = none ∧ i'.project_id = pid) := by
  unfold correlate_step
  rcases h1 : findIssue st.1 a with _ | i1 <;> rcases h2 : findIssue st.1 b with _ | i2 <;>
    simp only [h1, h2]
  · intro i' hi'; exact Or.inl ⟨i', hi', rfl, rfl⟩
  · intro i' hi'; exact Or.inl ⟨i', hi', rfl, rfl⟩
  · intro i' hi'; exact Or.inl ⟨i', hi', rfl, rfl⟩
  by_cases hff : i1.file_id = i2.file_id
  · rw [if_pos hff]; intro i' hi'; exact Or.inl ⟨i', hi', rfl, rfl⟩
  rw [if_neg hff]
  by_cases hsc : should_check_correlation i1 i2 = true
  case neg => rw [if_neg hsc]; intro i' hi'; exact Or.inl ⟨i', hi', rfl, rfl⟩
  rw [if_pos hsc]
  rcases hc : check_issue_correlation env st.1 i1 i2 with _ | corr <;> simp only [hc]
  · intro i' hi'; exact Or.inl ⟨i', hi', rfl, rfl⟩
  by_cases hic : corr.is_correlated = true
  case neg => rw [if_neg hic]; intro i' hi'; exact Or.inl ⟨i', hi', rfl, rfl⟩
  rw [if_pos hic]
  intro i' hi'
  have hiss : (setBackRef
      (setBackRef (create_confirmed_issue st.1 i1 i2 corr pid).1 i1.id
        (create_confirmed_issue st.1 i1 i2 corr pid).2.id)
      i2.id (create_confirmed_issue st.1 i1 i2 corr pid).2.id).issues =
      (st.1.issues ++ [(create_confirmed_issue st.1 i1 i2 corr pid).2]).map fun j =>
        annot i2.id (create_confirmed_issue st.1 i1 i2 corr pid).2.id
          (annot i1.id (create_confirmed_issue st.1 i1 i2 corr pid).2.id j) := by
    rw [setBackRef_issues, setBackRef_issues, cc_fst_issues, List.map_map]
    rfl
  rw [hiss] at hi'
  obtain ⟨j, hj, rfl⟩ := List.mem_map.mp hi'
  rcases List.mem_append.mp hj with hjold | hjci
  · exact Or.inl ⟨j, hjold, by rw [annot_file_id, annot_file_id],
      by rw [annot_project_id, annot_project_id]⟩
  · right
    rw [List.mem_singleton.mp hjci]
    constructor
    · rw [annot_file_id, annot_file_id]; rfl
    · rw [annot_project_id, annot_project_id]; rfl

lemma correlate_pass_preserve (env : Env) (pid : Nat) (P : CorrSt → Prop)
    (hstep : ∀ a b st, P st → P (correlate_step env pid a b st)) :
    ∀ (ids : List Nat) (st : CorrSt), P st → P (correlate_pass env pid ids st) := by
  have hinner : ∀ (x : Nat) (ids : List Nat) (st : CorrSt),
      P st → P (correlate_inner env pid x ids st) := by
    intro x ids
    induction ids with
    | nil => intro st h; exact h
    | cons y ys ih =>
      intro st h
      show P (correlate_inner env pid x ys (correlate_step env pid x y st))
      exact ih _ (hstep x y st h)
  intro ids
  induction ids with
  | nil => intro st h; exact h
  | cons x xs ih =>
    intro st h
    show P (correlate_pass env pid xs (correlate_inner env pid x xs st))
    exact ih _ (hinner x xs st h)

lemma correlate_issues_projects (env : Env) (db : DB) (pid : Nat) :
    (correlate_issues env db pid).1.projects = db.projects := by
  unfold correlate_issues
  exact correlate_pass_preserve env pid (fun st => st.1.projects = db.projects)
    (fun a b st h => (correlate_step_projects env pid a b st).trans h) _ (db, []) rfl

lemma correlate_issues_files (env : Env) (db : DB) (pid : Nat) :
    (correlate_issues env db pid).1.files = db.files := by
  unfold correlate_issues
  exact correlate_pass_preserve env pid (fun st => st.1.files = db.files)
    (fun a b st h => (correlate_step_files env pid a b st).trans h) _ (db, []) rfl

lemma correlate_issues_R (env : Env) (db : DB) (pid : Nat)
    (R : Option Nat → Nat → Prop) (hR : R none pid)
    (h0 : ∀ i ∈ db.issues, R i.file_id i.project_id) :
    ∀ i ∈ (correlate_issues env db pid).1.issues, R i.file_id i.project_id := by
  unfold correlate_issues
  refine correlate_pass_preserve env pid
    (fun st => ∀ i ∈ st.1.issues, R i.file_id i.project_id) ?_ _ (db, []) h0
  intro a b st h i hi
  rcases correlate_step_issues_mem env pid a b st i hi with ⟨j, hj, hf, hpj⟩ | ⟨hf, hpj⟩
  · rw [hf, hpj]; exact h j hj
  · rw [hf, hpj]; exact hR

lemma genFix_R (env : Env) (db : DB) (pid : Nat) (R : Option Nat → Nat → Prop)
    (h : ∀ i ∈ db.issues, R i.file_id i.project_id) :
    ∀ j ∈ (generate_fix_suggestions env db pid).1.issues, R j.file_id j.project_id := by
  rw [generate_fix_suggestions_fst_issues]
  intro j hj
  obtain ⟨i, hi, rfl⟩ := List.mem_map.mp hj
  rw [(applySuggestion_core env pid i).2.2.1, (applySuggestion_core env pid i).2.1]
  exact h i hi

lemma fileLoop_keeps_failed (env : Env) (pid fid : Nat) :
    ∀ (fs : List ProjectFile) (db : DB),
      (∀ f ∈ fs, f.id = fid → analysisFails env f = true) →
      ((∃ f' ∈ db.files, f'.id = fid ∧ f'.processed = false) →
        ∃ f' ∈ (fileLoop env pid fs db).files, f'.id = fid ∧ f'.processed = false) ∧
      ((∀ i ∈ db.issues, i.file_id ≠ some fid) →
        ∀ i ∈ (fileLoop env pid fs db).issues, i.file_id ≠ some fid) := by
  intro fs
  induction fs with
  | nil => intro db _; exact ⟨fun h => h, fun h => h⟩
  | cons f fs ih =>
    intro db hfail
    have htail : ∀ f' ∈ fs, f'.id = fid → analysisFails env f' = true :=
      fun f' hf' => hfail f' (List.mem_cons_of_mem f hf')
    by_cases hf : analysisFails env f = true
    · have heq : analyze_file env db f = (db, []) := analyze_file_fails env f db hf
      refine ⟨fun hex => ?_, fun hiss => ?_⟩
      · show ∃ f' ∈ (fileLoop env pid fs
            (incrementProcessed (analyze_file env db f).1 pid)).files, _ ∧ _
        apply (ih _ htail).1
        rw [heq]
        exact hex
      · show ∀ i ∈ (fileLoop env pid fs
            (incrementProcessed (analyze_file env db f).1 pid)).issues, _
        apply (ih _ htail).2
        rw [heq]
        exact hiss
    · have hok : analysisFails env f = false := by
        revert hf; cases analysisFails env f <;> simp
      have hfid : ¬f.id = fid := fun hEq => hf (hfail f (List.mem_cons_self f fs) hEq)
      obtain ⟨res, _, _, heq⟩ := analyze_file_ok_shape env f db hok
      have hfiles : (incrementProcessed
          (markFileProcessed (addRawIssues db f res.issues).1 f.id) pid).files =
          db.files.map fun g => if g.id = f.id then { g with processed := true } else g := by
        show (addRawIssues db f res.issues).1.files.map _ = _
        rw [addRawIssues_files f res.issues db]
      have hiss2 : (incrementProcessed
          (markFileProcessed (addRawIssues db f res.issues).1 f.id) pid).issues =
          db.issues ++ (addRawIssues db f res.issues).2 := by
        show (addRawIssues db f res.issues).1.issues = _
        exact addRawIssues_issues f res.issues db
      refine ⟨fun hex => ?_, fun hiss => ?_⟩
      · show ∃ f' ∈ (fileLoop env pid fs
            (incrementProcessed (analyze_file env db f).1 pid)).files, _ ∧ _
        apply (ih _ htail).1
        rw [heq, hfiles]
        obtain ⟨f', hf'm, hf'id, hf'p⟩ := hex
        refine ⟨f', ?_, hf'id, hf'p⟩
        have hid : (if f'.id = f.id then { f' with processed := true } else f') = f' :=
          if_neg (by rw [hf'id]; exact fun hEq => hfid hEq.symm)
        have hm := List.mem_map_of_mem
          (fun g => if g.id = f.id then { g with processed := true } else g) hf'm
        simpa [hid] using hm
      · show ∀ i ∈ (fileLoop env pid fs
            (incrementProcessed (analyze_file env db f).1 pid)).issues, _
        apply (ih _ htail).2
        rw [heq, hiss2]
        intro i hi
        rcases List.mem_append.mp hi with hold | hnew
        · exact hiss i hold
        · rw [(addRawIssues_created f res.issues db i hnew).1]
          intro hEq
          injection hEq with hEq2
          exact hfid hEq2

lemma fileLoop_allfail (env : Env) (pid : Nat) :
    ∀ (fs : List ProjectFile) (db : DB), (∀ f ∈ fs, analysisFails env f = true) →
      (fileLoop env pid fs db).issues = db.issues ∧
      (fileLoop env pid fs db).files = db.files := by
  intro fs
  induction fs with
  | nil => intro db _; exact ⟨rfl, rfl⟩
  | cons f fs ih =>
    intro db hfail
    have heq := analyze_file_fails env f db (hfail f (List.mem_cons_self f fs))
    have h2 := ih (incrementProcessed (analyze_file env db f).1 pid)
      (fun g hg => hfail g (List.mem_cons_of_mem f hg))
    rw [heq] at h2
    constructor
    · show (fileLoop env pid fs (incrementProcessed (analyze_file env db f).1 pid)).issues = _
      rw [heq]
      exact h2.1
    · show (fileLoop env pid fs (incrementProcessed (analyze_file env db f).1 pid)).files = _
      rw [heq]
      exact h2.2

lemma generate_fix_suggestions_projects (env : Env) (db : DB) (pid : Nat) :
    (generate_fix_suggestions env db pid).1.projects = db.projects := rfl

lemma process_project_eq (env : Env) (db : DB) (pid : Nat) (p : Project)
    (hp : getProject db pid = some p) (hsf : env.storeFail = none) :
    process_project env db pid =
      if projectFiles db pid = [] then mark_project_completed (setProcessing db pid) pid
      else mark_project_completed
        ((generate_fix_suggestions env
          ((correlate_issues env
            (fileLoop env pid (projectFiles db pid) (setProcessing db pid)) pid).1) pid).1)
        pid := by
  unfold process_project
  rw [hp, hsf]
  rfl

/-- **C6.** During a single run `files_processed` is reset to `0` exactly
when the run starts (fifth conjunct) and afterwards equals the number of
files already iterated (first conjunct), so it is monotonically
non-decreasing along the run (second conjunct) and never exceeds
`total_files` at any intermediate point (third conjunct) nor at the end of
the whole run (fourth conjunct), given the project's stored file count does
not exceed `total_files`; that premise is exactly what the upload route's
file-count guard preserves (last conjunct). -/
theorem c6_progress_monotone_never_exceeds (env : Env) (db : DB) (pid : Nat) (p : Project)
    (hp : getProject db pid = some p)
    (hlen : (projectFiles db pid).length ≤ p.total_files) :
    (∀ k : Nat,
        getProject (fileLoop env pid ((projectFiles db pid).take k) (setProcessing db pid)) pid
          = some { p with
                   status := ProjectStatus.PROCESSING
                   files_processed := min k (projectFiles db pid).length }) ∧
    (∀ k l : Nat, k ≤ l → ∀ a b : Nat,
        (getProject (fileLoop env pid ((projectFiles db pid).take k)
            (setProcessing db pid)) pid).map (fun q => q.files_processed) = some a →
        (getProject (fileLoop env pid ((projectFiles db pid).take l)
            (setProcessing db pid)) pid).map (fun q => q.files_processed) = some b →
        a ≤ b) ∧
    (∀ k a : Nat,
        (getProject (fileLoop env pid ((projectFiles db pid).take k)
            (setProcessing db pid)) pid).map (fun q => q.files_processed) = some a →
        a ≤ p.total_files) ∧
    (∀ a : Nat,
        (getProject (process_project env db pid) pid).map (fun q => q.files_processed)
          = some a → a ≤ p.total_files) ∧
    ((getProject (setProcessing db pid) pid).map (fun q => q.files_processed) = some 0) ∧
    (∀ (fn c ft : String) (nfid : Nat),
        (projectFiles (uploadFile db pid fn c ft nfid) pid).length ≤ p.total_files) := by
  have h0 := getProject_setProcessing db pid p hp
  have h1 : ∀ k : Nat,
      getProject (fileLoop env pid ((projectFiles db pid).take k) (setProcessing db pid)) pid
        = some { p with
                 status := ProjectStatus.PROCESSING
                 files_processed := min k (projectFiles db pid).length } := by
    intro k
    rw [fileLoop_getProject, h0]
    simp only [Option.map_some']
    rw [show ((projectFiles db pid).take k).length = min k (projectFiles db pid).length from
      List.length_take k (projectFiles db pid), Nat.zero_add]
  have hfull : getProject (fileLoop env pid (projectFiles db pid) (setProcessing db pid)) pid
      = some { p with
               status := ProjectStatus.PROCESSING
               files_processed := (projectFiles db pid).length } := by
    rw [fileLoop_getProject, h0]
    simp only [Option.map_some']
    rw [Nat.zero_add]
  refine ⟨h1, ?_, ?_, ?_, ?_, ?_⟩
  · intro k l hkl a b ha hb
    rw [h1 k] at ha
    rw [h1 l] at hb
    simp only [Option.map_some', Option.some.injEq] at ha hb
    omega
  · intro k a ha
    rw [h1 k] at ha
    simp only [Option.map_some', Option.some.injEq] at ha
    omega
  · intro a ha
    rcases hsf : env.storeFail with _ | m
    · rw [process_project_eq env db pid p hp hsf] at ha
      by_cases hemp : projectFiles db pid = []
      · rw [if_pos hemp, getProject_mark_completed, h0] at ha
        simp only [Option.map_some', Option.some.injEq] at ha
        omega
      · rw [if_neg hemp, getProject_mark_completed,
          getProject_eq_of_projects (generate_fix_suggestions_projects env _ pid) pid,
          getProject_eq_of_projects (correlate_issues_projects env _ pid) pid,
          hfull] at ha
        simp only [Option.map_some', Option.some.injEq] at ha
        omega
    · have hps : process_project env db pid = mark_project_failed (setProcessing db pid) pid m := by
        unfold process_project; rw [hp, hsf]
      rw [hps] at ha
      unfold mark_project_failed at ha
      rw [getProject_updateProject _ pid
        (fun q => { q with status := ProjectStatus.FAILED, error_message := some m })
        (fun q => rfl), h0] at ha
      simp only [Option.map_some', Option.some.injEq] at ha
      omega
  · rw [h0]
    rfl
  · intro fn c ft nfid
    unfold uploadFile
    simp only [hp]
    by_cases hst : p.status = ProjectStatus.INITIALIZING ∨ p.status = ProjectStatus.PROCESSING
    case neg => rw [if_neg hst]; exact hlen
    rw [if_pos hst]
    by_cases hfc : fn = "" ∨ c = ""
    · rw [if_pos hfc]; exact hlen
    rw [if_neg hfc]
    by_cases hdup : (db.files.filter fun g =>
        decide (g.project_id = pid) && decide (g.filename = fn)).length ≠ 0
    · rw [if_pos hdup]; exact hlen
    rw [if_neg hdup]
    by_cases hcnt : (projectFiles db pid).length ≥ p.total_files
    · rw [if_pos hcnt]; exact hlen
    rw [if_neg hcnt]
    have hnew : (projectFiles { db with files := db.files ++
        [{ id := nfid, project_id := pid, filename := fn, content := c,
           file_type := ft, processed := false }] } pid).length =
        (projectFiles db pid).length + 1 := by
      unfold projectFiles
      rw [List.filter_append]
      simp
    by_cases hinit : p.status = ProjectStatus.INITIALIZING
    · rw [if_pos hinit]
      show (projectFiles { db with files := db.files ++ [_] } pid).length ≤ p.total_files
      rw [hnew]
      omega
    · rw [if_neg hinit]
      rw [hnew]
      omega

/-- Witness for C6 at a concrete project. -/
theorem c6_progress_monotone_never_exceeds_witness :
    (∀ k a : Nat,
        (getProject (fileLoop envCorr 1 ((projectFiles dbTwoFiles 1).take k)
            (setProcessing dbTwoFiles 1)) 1).map (fun q => q.files_processed) = some a →
        a ≤ 2) ∧
    ((getProject (setProcessing dbTwoFiles 1) 1).map (fun q => q.files_processed) = some 0) := by
  have h := c6_progress_monotone_never_exceeds envCorr dbTwoFiles 1
    { id := 1, total_files := 2, files_processed := 0,
      status := ProjectStatus.INITIALIZING, error_message := none }
    (by decide) (by decide)
  exact ⟨h.2.2.1, h.2.2.2.2.1⟩

/-- **C1.** On a fresh run of a stored project, reasoning-service failures
are isolated per file: the controller still drives the project to the
`COMPLETED` terminal state with the progress counter covering every file
(first conjunct, so processing of the remaining files continues); every file
whose analysis fails (raises or returns an error payload) keeps
`processed = false` and contributes zero issues (second conjunct); and when
every file fails the project completes with zero issues (third conjunct).
The hypotheses say the project exists, no store exception is injected, file
ids are duplicate-free (primary keys), and the project starts with no
issues and no foreign issues referencing its files. -/
theorem c1_failed_analysis_isolated_project_completes (env : Env) (db : DB) (pid : Nat)
    (p : Project)
    (hp : getProject db pid = some p)
    (hsf : env.storeFail = none)
    (hfids : (db.files.map fun f => f.id).Nodup)
    (hnoiss : ∀ i ∈ db.issues, i.project_id ≠ pid)
    (hnofref : ∀ i ∈ db.issues, ∀ f ∈ projectFiles db pid, i.file_id ≠ some f.id) :
    (getProject (process_project env db pid) pid =
        some { p with
               status := ProjectStatus.COMPLETED
               files_processed := (projectFiles db pid).length }) ∧
    (∀ f ∈ projectFiles db pid, analysisFails env f = true → f.processed = false →
        (∃ f' ∈ (process_project env db pid).files, f'.id = f.id ∧ f'.processed = false) ∧
        ∀ i ∈ (process_project env db pid).issues, i.file_id ≠ some f.id) ∧
    ((∀ f ∈ projectFiles db pid, analysisFails env f = true) →
        projectIssues (process_project env db pid) pid = []) := by
  rw [process_project_eq env db pid p hp hsf]
  by_cases hemp : projectFiles db pid = []
  · rw [if_pos hemp]
    refine ⟨?_, ?_, ?_⟩
    · rw [getProject_mark_completed, getProject_setProcessing db pid p hp, hemp]
      rfl
    · intro f hf
      rw [hemp] at hf
      simp at hf
    · intro _
      show projectIssues (mark_project_completed (setProcessing db pid) pid) pid = []
      unfold projectIssues
      show db.issues.filter _ = []
      apply List.filter_eq_nil_iff.mpr
      intro i hi
      simp [hnoiss i hi]
  · rw [if_neg hemp]
    set db1 := setProcessing db pid with hdb1
    set db2 := fileLoop env pid (projectFiles db pid) db1 with hdb2
    set db3 := (correlate_issues env db2 pid).1 with hdb3
    set db4 := (generate_fix_suggestions env db3 pid).1 with hdb4
    refine ⟨?_, ?_, ?_⟩
    · rw [getProject_mark_completed]
      have hch : getProject db4 pid = getProject db2 pid := by
        rw [hdb4, hdb3]
        rw [getProject_eq_of_projects (generate_fix_suggestions_projects env _ pid) pid,
          getProject_eq_of_projects (correlate_issues_projects env _ pid) pid]
      rw [hch, hdb2, hdb1, fileLoop_getProject, getProject_setProcessing db pid p hp]
      simp only [Option.map_some']
      rw [Nat.zero_add]
    · intro f hf hfail hproc
      have hsubf : ∀ g ∈ projectFiles db pid, g ∈ db.files :=
        fun g hg => List.mem_of_mem_filter hg
      have hfilefail : ∀ g ∈ projectFiles db pid, g.id = f.id → analysisFails env g = true := by
        intro g hg hid
        have hgf : g = f := List.inj_on_of_nodup_map hfids (hsubf g hg) (hsubf f hf) hid
        rw [hgf]; exact hfail
      have hloop := fileLoop_keeps_failed env pid f.id (projectFiles db pid) db1 hfilefail
      have hex0 : ∃ f' ∈ db1.files, f'.id = f.id ∧ f'.processed = false :=
        ⟨f, hsubf f hf, rfl, hproc⟩
      have hiss0 : ∀ i ∈ db1.issues, i.file_id ≠ some f.id := by
        intro i hi
        exact hnofref i hi f hf
      have hex2 := hloop.1 hex0
      have hiss2 := hloop.2 hiss0
      constructor
      · have hfiles : (mark_project_completed db4 pid).files = db2.files := by
          show db4.files = db2.files
          rw [hdb4]
          show db3.files = db2.files
          rw [hdb3]
          exact correlate_issues_files env db2 pid
        rw [hfiles]
        exact hex2
      · intro i hi
        have hR : ∀ j ∈ db4.issues, j.file_id ≠ some f.id := by
          rw [hdb4]
          apply genFix_R env db3 pid (fun fid _ => fid ≠ some f.id)
          rw [hdb3]
          apply correlate_issues_R env db2 pid (fun fid _ => fid ≠ some f.id) (by simp)
          exact hiss2
        exact hR i hi
    · intro hallfail
      have hloop2 := fileLoop_allfail env pid (projectFiles db pid) db1 hallfail
      have hiss2 : db2.issues = db.issues := by
        rw [hdb2, hloop2.1]
        rfl
      have hpot : projectPotentialIssues db2 pid = [] := by
        unfold projectPotentialIssues
        rw [hiss2]
        apply List.filter_eq_nil_iff.mpr
        intro i hi
        simp [hnoiss i hi]
      have hdb32 : db3 = db2 := by
        rw [hdb3]
        unfold correlate_issues
        rw [hpot]
        rfl
      have hall4 : ∀ j ∈ db4.issues, j.project_id ≠ pid := by
        rw [hdb4]
        apply genFix_R env db3 pid (fun _ pj => pj ≠ pid)
        intro i hi
        rw [hdb32, hiss2] at hi
        exact hnoiss i hi
      show projectIssues (mark_project_completed db4 pid) pid = []
      unfold projectIssues
      show db4.issues.filter _ = []
      apply List.filter_eq_nil_iff.mpr
      intro i hi
      simp [hall4 i hi]

/-- Witness for C1: a two-file project where the analysis of `c.py` raises
and `d.py` succeeds; the run completes, covers both files, and the failed
file contributes no issues. -/
theorem c1_failed_analysis_isolated_project_completes_witness :
    (getProject (process_project envMixed dbTwoFiles 1) 1 =
        some { id := 1
               total_files := 2
               files_processed := 2
               status := ProjectStatus.COMPLETED
               error_message := none }) ∧
    (∃ f' ∈ (process_project envMixed dbTwoFiles 1).files, f'.id = 10 ∧
        f'.processed = false) ∧
    (∀ i ∈ (process_project envMixed dbTwoFiles 1).issues, i.file_id ≠ some 10) := by
  have h := c1_failed_analysis_isolated_project_completes envMixed dbTwoFiles 1
    { id := 1, total_files := 2, files_processed := 0,
      status := ProjectStatus.INITIALIZING, error_message := none }
    (by decide) rfl (by decide) (by decide) (by decide)
  have hf : fC ∈ projectFiles dbTwoFiles 1 := by decide
  have h2 := h.2.1 _ hf (by decide) rfl
  exact ⟨h.1, h2.1, h2.2⟩

end AiPerf
